import Mathlib

/-! linear-clock: the time-to-pixel mapping of `src/main.cpp`

A shallow embedding of the Arduino sketch that renders the wall-clock time on a
strip of addressable LEDs.

* C++ `int` values are mathematical integers (`Int`).  Signed overflow is undefined
  in C++, so every statement below is about executions in which no intermediate
  value leaves the range of `int`.
* `/` and `%` on `int` truncate toward zero (`Int.tdiv`, `Int.tmod`); a zero divisor
  is undefined behaviour and is reported as `Fault.divByZero`.
* `colors[i]` is an access to a fixed-length array; an index outside the array is
  undefined behaviour and is reported as `Fault.outOfBounds`.
* Calls to the LED driver and to the serial console are recorded, in program order,
  as a list of `Effect`s.
-/

namespace LinearClock

set_option maxRecDepth 100000

/-! ## Faults, effects, machine arithmetic -/

/-- Undefined behaviour the sketch can run into. -/
inductive Fault where
  | divByZero
  | outOfBounds
deriving DecidableEq, Repr

/-- Calls the sketch makes on its two collaborators: the NeoPixel strip
(`strip.setPixelColor`, `strip.clear`, `strip.show`) and the serial console
(`Serial.print(int, DEC)`, `Serial.print(char)`, `Serial.println(text)`). -/
inductive Effect where
  | setPixelColor (n : Int) (c : Nat)
  | stripClear
  | stripShow
  | serialPrintInt (v : Int)
  | serialPrintChar (c : Char)
  | serialPrintln (s : String)
deriving DecidableEq, Repr

/-- Whether an effect is a call on the LED driver. -/
def Effect.isLedCall : Effect → Bool
  | .setPixelColor _ _ => true
  | .stripClear => true
  | .stripShow => true
  | _ => false

/-- Whether an effect is a `strip.setPixelColor` call. -/
def Effect.isSetPixel : Effect → Bool
  | .setPixelColor _ _ => true
  | _ => false

instance {ε α : Type} [DecidableEq ε] [DecidableEq α] : DecidableEq (Except ε α)
  | .ok a, .ok b =>
    if h : a = b then isTrue (congrArg Except.ok h)
    else isFalse (fun h2 => h (Except.ok.inj h2))
  | .error a, .error b =>
    if h : a = b then isTrue (congrArg Except.error h)
    else isFalse (fun h2 => h (Except.error.inj h2))
  | .ok _, .error _ => isFalse (fun h => Except.noConfusion h)
  | .error _, .ok _ => isFalse (fun h => Except.noConfusion h)

/-- The C++ expression `a / b` on `int`. -/
def cdiv (a b : Int) : Except Fault Int :=
  if b = 0 then .error .divByZero else .ok (Int.tdiv a b)

/-- The C++ expression `a % b` on `int`. -/
def cmod (a b : Int) : Except Fault Int :=
  if b = 0 then .error .divByZero else .ok (Int.tmod a b)

/-- The values the loop variable takes in `for (int i = lo; i < hi; i++)`. -/
def zone (lo hi : Int) : List Int :=
  (List.range (hi - lo).toNat).map (fun (k : Nat) => lo + (k : Int))

/-- A `for` loop over the indices `is` whose body updates a state and may fault. -/
def forState {σ : Type} (body : Int → σ → Except Fault σ) : List Int → σ → Except Fault σ
  | [], s => .ok s
  | i :: is, s =>
    match body i s with
    | .error e => .error e
    | .ok s1 => forState body is s1

/-- A `for` loop over the indices `is` whose body issues effects and may fault. -/
def forEffects (body : Int → Except Fault (List Effect)) : List Int → Except Fault (List Effect)
  | [] => .ok []
  | i :: is =>
    match body i with
    | .error e => .error e
    | .ok es =>
      match forEffects body is with
      | .error e => .error e
      | .ok rest => .ok (es ++ rest)

/-! ## Configuration (`struct Config`) -/

/-- The macro `LED_COUNT`. -/
def LED_COUNT : Nat := 165

/-- The library function `Adafruit_NeoPixel::Color(r, g, b)`: a packed 32-bit colour. -/
def Color (r g b : Nat) : Nat := r * 65536 + g * 256 + b

/-- The C++ `struct Config`, with its default member initialisers. -/
structure Config where
  total : Int := LED_COUNT
  totalHours : Int := 13
  hoursStart : Int := 6
  intervalHours : Int := 12
  intervalHalves : Int := Int.tdiv intervalHours 2
  intervalQuarters : Int := Int.tdiv intervalHours 4
  clockStart : Int := 0
  clockEnd : Int := totalHours * intervalHours
  intervalMinutes : Int := 5
  minutesStart : Int := clockEnd
  minutesEnd : Int := minutesStart + intervalMinutes
  intervalSeconds : Int := 4
  secondsRepresentation : Int := 15
  secondsStart : Int := minutesEnd
  secondsEnd : Int := secondsStart + intervalSeconds
  colorTicksHours : Nat := Color 255 255 0
  colorTicksHalves : Nat := Color 0 0 255
  colorTicksQuarters : Nat := Color 255 0 0
  colorFuture : Nat := Color 255 255 255
  colorPast : Nat := Color 0 255 0
  colorCounterMinutes : Nat := Color 0 0 255
  colorCounterSeconds : Nat := Color 0 255 0
  colors : List Nat := List.replicate LED_COUNT 0
deriving DecidableEq, Repr

/-- The global `Config cfg;` of the sketch: every field has its default value. -/
def shippedConfig : Config := {}

/-- The zone fields hold what the initialisers of `struct Config` give them. -/
def Config.ZoneLayout (c : Config) : Prop :=
  c.clockStart = 0 ∧ c.clockEnd = c.totalHours * c.intervalHours ∧
  c.minutesStart = c.clockEnd ∧ c.minutesEnd = c.minutesStart + c.intervalMinutes ∧
  c.secondsStart = c.minutesEnd ∧ c.secondsEnd = c.secondsStart + c.intervalSeconds

instance (c : Config) : Decidable c.ZoneLayout := by
  unfold Config.ZoneLayout; infer_instance

/-- The tick spacings hold what the initialisers of `struct Config` give them. -/
def Config.TickSpacing (c : Config) : Prop :=
  c.intervalHalves = Int.tdiv c.intervalHours 2 ∧
  c.intervalQuarters = Int.tdiv c.intervalHours 4

instance (c : Config) : Decidable c.TickSpacing := by
  unfold Config.TickSpacing; infer_instance

/-- The write `cfg->colors[i] = v`. -/
def writeColor (colors : List Nat) (i : Int) (v : Nat) : Except Fault (List Nat) :=
  if 0 ≤ i ∧ i < (colors.length : Int) then .ok (colors.set i.toNat v)
  else .error .outOfBounds

/-- The read `cfg->colors[i]`. -/
def readColor (colors : List Nat) (i : Int) : Except Fault Nat :=
  if 0 ≤ i ∧ i < (colors.length : Int) then .ok (colors.getD i.toNat 0)
  else .error .outOfBounds

/-! ## `initColors` -/

/-- The colour the `if` chain of the first loop of `initColors` picks for index `i`;
each modulus is evaluated only when the tests before it have failed. -/
def tickColor (cfg : Config) (i : Int) : Except Fault Nat :=
  match cmod i cfg.intervalHours with
  | .error e => .error e
  | .ok r1 =>
    if r1 = 0 then .ok cfg.colorTicksHours
    else
      match cmod i cfg.intervalHalves with
      | .error e => .error e
      | .ok r2 =>
        if r2 = 0 then .ok cfg.colorTicksHalves
        else
          match cmod i cfg.intervalQuarters with
          | .error e => .error e
          | .ok r3 =>
            if r3 = 0 then .ok cfg.colorTicksQuarters
            else .ok cfg.colorFuture

/-- Body of the first loop of `initColors`: classify `i` and store the colour. -/
def initTick (cfg : Config) (i : Int) (colors : List Nat) : Except Fault (List Nat) :=
  match tickColor cfg i with
  | .error e => .error e
  | .ok v => writeColor colors i v

/-- Body of the second and third loops of `initColors`: `colors[i] = colorFuture`. -/
def initFuture (cfg : Config) (i : Int) (colors : List Nat) : Except Fault (List Nat) :=
  writeColor colors i cfg.colorFuture

/-- The function `initColors`: three loops over the three zones, in order. -/
def initColors (cfg : Config) : Except Fault Config :=
  match forState (initTick cfg) (zone cfg.clockStart cfg.clockEnd) cfg.colors with
  | .error e => .error e
  | .ok c1 =>
    match forState (initFuture cfg) (zone cfg.minutesStart cfg.minutesEnd) c1 with
    | .error e => .error e
    | .ok c2 =>
      match forState (initFuture cfg) (zone cfg.secondsStart cfg.secondsEnd) c2 with
      | .error e => .error e
      | .ok c3 => .ok { cfg with colors := c3 }

/-! ## Sampled time -/

/-- The library type `DateTime` of RTClib: date and time of day, compared field by
field by `==` and `!=`. -/
structure DateTime where
  year : Nat
  month : Nat
  day : Nat
  hour : Nat
  minute : Nat
  second : Nat
deriving DecidableEq, Repr

/-- The function `getHours`. -/
def getHours (dateTime : DateTime) : Int := dateTime.hour

/-- The function `getMinutes`. -/
def getMinutes (dateTime : DateTime) : Int := dateTime.minute

/-- The function `getSeconds`. -/
def getSeconds (dateTime : DateTime) : Int := dateTime.second

/-- The function `logTime`: prints `hour:minute:second` and a line end. -/
def logTime (dateTime : DateTime) : List Effect :=
  [.serialPrintInt (getHours dateTime), .serialPrintChar ':',
   .serialPrintInt (getMinutes dateTime), .serialPrintChar ':',
   .serialPrintInt (getSeconds dateTime), .serialPrintln ""]

/-- The function `inClockRange`. -/
def inClockRange (cfg : Config) (hours : Int) : Bool :=
  decide (hours ≥ cfg.hoursStart) && decide (hours < cfg.hoursStart + cfg.totalHours)

/-! ## `renderTime` -/

/-- Lines 268-270 of `renderTime`: the fill boundary of the hour track. -/
def currentTimeIndex (cfg : Config) (hours minutes : Int) : Except Fault Int :=
  match cdiv minutes cfg.intervalMinutes with
  | .error e => .error e
  | .ok q => .ok (cfg.clockStart + (hours - cfg.hoursStart) * cfg.intervalHours + q)

/-- Lines 272-273 of `renderTime`: the fill boundary of the minute counter. -/
def currentMinuteIndex (cfg : Config) (minutes : Int) : Except Fault Int :=
  match cmod minutes cfg.intervalMinutes with
  | .error e => .error e
  | .ok r => .ok (cfg.minutesStart + r)

/-- Lines 275-276 of `renderTime`: the fill boundary of the second counter. -/
def currentSecondIndex (cfg : Config) (seconds : Int) : Except Fault Int :=
  match cdiv seconds cfg.secondsRepresentation with
  | .error e => .error e
  | .ok q => .ok (cfg.secondsStart + q)

/-- Body of each of the three loops of `renderTime`: below the boundary the pixel
gets the zone's elapsed colour, from the boundary on it gets `colors[i]`. -/
def renderPixel (cfg : Config) (boundary : Int) (elapsed : Nat) (i : Int) :
    Except Fault (List Effect) :=
  if i < boundary then .ok [.setPixelColor i elapsed]
  else
    match readColor cfg.colors i with
    | .error e => .error e
    | .ok c => .ok [.setPixelColor i c]

/-- The function `renderTime`: log the time, compute the three boundaries, then run
the three loops. -/
def renderTime (cfg : Config) (dateTime : DateTime) : Except Fault (List Effect) :=
  let hours := getHours dateTime
  let minutes := getMinutes dateTime
  let seconds := getSeconds dateTime
  match currentTimeIndex cfg hours minutes with
  | .error e => .error e
  | .ok timeIndex =>
    match currentMinuteIndex cfg minutes with
    | .error e => .error e
    | .ok minuteIndex =>
      match currentSecondIndex cfg seconds with
      | .error e => .error e
      | .ok secondIndex =>
        match forEffects (renderPixel cfg timeIndex cfg.colorPast)
            (zone cfg.clockStart cfg.clockEnd) with
        | .error e => .error e
        | .ok e1 =>
          match forEffects (renderPixel cfg minuteIndex cfg.colorCounterMinutes)
              (zone cfg.minutesStart cfg.minutesEnd) with
          | .error e => .error e
          | .ok e2 =>
            match forEffects (renderPixel cfg secondIndex cfg.colorCounterSeconds)
                (zone cfg.secondsStart cfg.secondsEnd) with
            | .error e => .error e
            | .ok e3 => .ok (logTime dateTime ++ e1 ++ e2 ++ e3)

/-! ## `loop` -/

/-- The globals `last` and `alreadyOff` that one pass of `loop` reads and writes. -/
structure LoopState where
  last : DateTime
  alreadyOff : Bool
deriving DecidableEq, Repr

/-- The blanking loop of `loop`: one `strip.clear(); strip.show();` per index of
`[clockStart, total)`. -/
def blankStrip (cfg : Config) : List Effect :=
  (zone cfg.clockStart cfg.total).flatMap (fun _ => [Effect.stripClear, Effect.stripShow])

/-- One pass of the function `loop`, given the sample `now` returned by `getNow(rtc)`. -/
def loop (cfg : Config) (s : LoopState) (now : DateTime) :
    Except Fault (LoopState × List Effect) :=
  if now ≠ s.last then
    if inClockRange cfg (getHours now) then
      match renderTime cfg now with
      | .error e => .error e
      | .ok es => .ok ({ last := now, alreadyOff := false }, es ++ [Effect.stripShow])
    else
      if !s.alreadyOff then
        .ok ({ last := now, alreadyOff := true },
          Effect.serialPrintln "not in clock range!" :: blankStrip cfg)
      else
        .ok ({ last := now, alreadyOff := s.alreadyOff },
          [Effect.serialPrintln "not in clock range!"])
  else .ok (s, [])

/-- Whether an effect is a `strip.setPixelColor` call on pixel `i`. -/
def Effect.writesPixel (i : Int) : Effect → Bool
  | .setPixelColor n _ => decide (n = i)
  | _ => false

/-! ## Configurations used as test inputs -/

/-- The shipped configuration with `intervalMinutes` changed to `-5`: laid out as in
`struct Config`, the second zone `[151,155)` then lies inside the hour zone `[0,156)`. -/
def negativeMinutesConfig : Config := { intervalMinutes := -5 }

/-- The shipped configuration with `secondsRepresentation` changed to `0`. -/
def zeroSecondsConfig : Config := { secondsRepresentation := 0 }

/-- The shipped configuration with `intervalMinutes` changed to `0`: an empty minute
zone. -/
def zeroMinutesConfig : Config := { intervalMinutes := 0 }

/-- The shipped configuration with `totalHours` changed to `14`: the zones end at
index 177, past the 165 entries of `colors[]`. -/
def fourteenHoursConfig : Config := { totalHours := 14 }

/-! ## The state machine of `loop` -/

/-- The globals at startup: `DateTime last;` is default-constructed (RTClib:
2000-01-01 00:00:00) and `bool alreadyOff = false`. -/
def initialLoopState : LoopState :=
  { last := ⟨2000, 1, 1, 0, 0, 0⟩, alreadyOff := false }

/-- States the globals can be in after completed passes of `loop` from startup; the
flag tells whether some pass so far saw a sample different from `last`. -/
inductive Reachable (cfg : Config) : LoopState → Bool → Prop where
  | start : Reachable cfg initialLoopState false
  | pass {s st : LoopState} {accepted : Bool} (now : DateTime) (es : List Effect) :
      Reachable cfg s accepted → loop cfg s now = .ok (st, es) →
      Reachable cfg st (accepted || decide (now ≠ s.last))

/-! ## Loops: reasoning principles -/

theorem mem_zone (lo hi i : Int) : i ∈ zone lo hi ↔ lo ≤ i ∧ i < hi := by
  unfold zone
  simp only [List.mem_map, List.mem_range]
  constructor
  · rintro ⟨k, hk, rfl⟩
    omega
  · rintro ⟨h1, h2⟩
    exact ⟨(i - lo).toNat, by omega, by omega⟩

theorem zone_nodup (lo hi : Int) : (zone lo hi).Nodup := by
  unfold zone
  refine List.Nodup.map ?_ (List.nodup_range _)
  intro a b h
  simpa using h

theorem writeColor_ok_iff (s : List Nat) (i : Int) (v : Nat) (s1 : List Nat) :
    writeColor s i v = .ok s1 ↔ (0 ≤ i ∧ i < (s.length : Int)) ∧ s1 = s.set i.toNat v := by
  unfold writeColor
  split
  · rename_i h
    simp [h, eq_comm]
  · rename_i h
    simp [h]

theorem readColor_ok (s : List Nat) (i : Int) (h0 : 0 ≤ i) (h1 : i < (s.length : Int)) :
    readColor s i = .ok (s.getD i.toNat 0) := by
  unfold readColor
  rw [if_pos ⟨h0, h1⟩]

theorem forState_congr {σ : Type} (body body2 : Int → σ → Except Fault σ) :
    ∀ (is : List Int) (s : σ), (∀ i ∈ is, ∀ t, body i t = body2 i t) →
      forState body is s = forState body2 is s := by
  intro is
  induction is with
  | nil => intro s _; rfl
  | cons i is ih =>
    intro s h
    simp only [forState]
    rw [h i (List.mem_cons_self _ _) s]
    cases body2 i s with
    | error e => rfl
    | ok s1 => exact ih s1 (fun k hk t => h k (List.mem_cons_of_mem _ hk) t)

/-- A loop of array writes that completes wrote only inside the array, kept the
length of the array, and left every index it did not visit as it was. -/
theorem forState_write_inv (body : Int → List Nat → Except Fault (List Nat))
    (h : ∀ i s s1, body i s = .ok s1 → ∃ x, writeColor s i x = .ok s1) :
    ∀ (is : List Int) (s s2 : List Nat), forState body is s = .ok s2 →
      s2.length = s.length ∧ (∀ i ∈ is, 0 ≤ i ∧ i < (s.length : Int)) ∧
      (∀ j : Nat, (j : Int) ∉ is → s2.getD j 0 = s.getD j 0) := by
  intro is
  induction is with
  | nil =>
    intro s s2 hs
    simp [forState] at hs
    subst hs
    simp
  | cons i is ih =>
    intro s s2 hs
    simp only [forState] at hs
    cases hb : body i s with
    | error e => simp [hb] at hs
    | ok s1 =>
      simp only [hb] at hs
      obtain ⟨x, hx⟩ := h i s s1 hb
      rw [writeColor_ok_iff] at hx
      obtain ⟨hbd, rfl⟩ := hx
      obtain ⟨h1, h2, h3⟩ := ih _ _ hs
      simp only [List.length_set] at h1 h2
      refine ⟨h1, ?_, ?_⟩
      · intro k hk
        rcases List.mem_cons.mp hk with rfl | hk
        · exact hbd
        · exact h2 k hk
      · intro j hj
        simp only [List.mem_cons, not_or] at hj
        rw [h3 j hj.2]
        have : i.toNat ≠ j := by omega
        simp [List.getD_eq_getElem?_getD, List.getElem?_set_ne this]

/-- A completed loop that stores `w i` at every index `i` it visits leaves `w j` at
every visited index `j`. -/
theorem forState_write_val (w : Int → Nat) :
    ∀ (is : List Int) (s s2 : List Nat),
      forState (fun i t => writeColor t i (w i)) is s = .ok s2 →
      ∀ j : Nat, (j : Int) ∈ is → s2.getD j 0 = w j := by
  intro is
  induction is with
  | nil => intro s s2 _ j hj; simp at hj
  | cons i is ih =>
    intro s s2 hs j hj
    simp only [forState] at hs
    cases hw : writeColor s i (w i) with
    | error e => simp [hw] at hs
    | ok s1 =>
      simp only [hw] at hs
      by_cases hmem : (j : Int) ∈ is
      · exact ih s1 s2 hs j hmem
      · have hji : (j : Int) = i := by
          rcases List.mem_cons.mp hj with h | h
          · exact h
          · exact absurd h hmem
        obtain ⟨_, _, h3⟩ := forState_write_inv (fun k t => writeColor t k (w k))
          (fun k t t1 hk => ⟨w k, hk⟩) is s1 s2 hs
        rw [h3 j hmem]
        rw [writeColor_ok_iff] at hw
        obtain ⟨hbd, rfl⟩ := hw
        subst hji
        have hlt : j < s.length := by omega
        simp [List.getD_eq_getElem?_getD, List.getElem?_set_self hlt]

/-- A loop of array writes whose indices all lie inside the array completes. -/
theorem forState_write_total (w : Int → Nat) :
    ∀ (is : List Int) (s : List Nat), (∀ i ∈ is, 0 ≤ i ∧ i < (s.length : Int)) →
      ∃ s2, forState (fun i t => writeColor t i (w i)) is s = .ok s2 := by
  intro is
  induction is with
  | nil => intro s _; exact ⟨s, rfl⟩
  | cons i is ih =>
    intro s h
    simp only [forState]
    have hi := h i (List.mem_cons_self _ _)
    have hw : writeColor s i (w i) = .ok (s.set i.toNat (w i)) := by
      rw [writeColor_ok_iff]; exact ⟨hi, rfl⟩
    rw [hw]
    apply ih
    intro k hk
    simpa using h k (List.mem_cons_of_mem _ hk)

/-- A rendering loop whose indices all lie inside `colors[]` issues one
`setPixelColor` per index, in order. -/
theorem forEffects_renderPixel (cfg : Config) (boundary : Int) (elapsed : Nat) :
    ∀ (is : List Int), (∀ i ∈ is, 0 ≤ i ∧ i < (cfg.colors.length : Int)) →
      forEffects (renderPixel cfg boundary elapsed) is =
        .ok (is.map (fun i => Effect.setPixelColor i
          (if i < boundary then elapsed else cfg.colors.getD i.toNat 0))) := by
  intro is
  induction is with
  | nil => intro _; rfl
  | cons i is ih =>
    intro h
    have hi := h i (List.mem_cons_self _ _)
    have hb : renderPixel cfg boundary elapsed i = .ok [Effect.setPixelColor i
        (if i < boundary then elapsed else cfg.colors.getD i.toNat 0)] := by
      unfold renderPixel
      by_cases hlt : i < boundary
      · simp [hlt]
      · simp [hlt, readColor_ok _ _ hi.1 hi.2]
    simp only [forEffects, hb, ih (fun k hk => h k (List.mem_cons_of_mem _ hk))]
    simp

/-! ## `initColors`: what a completed run has done -/

theorem initTick_is_write (cfg : Config) (i : Int) (s s1 : List Nat)
    (h : initTick cfg i s = .ok s1) : ∃ x, writeColor s i x = .ok s1 := by
  unfold initTick at h
  cases ht : tickColor cfg i with
  | error e => simp [ht] at h
  | ok v => exact ⟨v, by simpa [ht] using h⟩

theorem initFuture_is_write (cfg : Config) (i : Int) (s s1 : List Nat)
    (h : initFuture cfg i s = .ok s1) : ∃ x, writeColor s i x = .ok s1 :=
  ⟨cfg.colorFuture, h⟩

/-- The three loops of a completed `initColors`, one after the other. -/
theorem initColors_ok_split (cfg cfg2 : Config) (h : initColors cfg = .ok cfg2) :
    ∃ c1 c2,
      forState (initTick cfg) (zone cfg.clockStart cfg.clockEnd) cfg.colors = .ok c1 ∧
      forState (initFuture cfg) (zone cfg.minutesStart cfg.minutesEnd) c1 = .ok c2 ∧
      forState (initFuture cfg) (zone cfg.secondsStart cfg.secondsEnd) c2 = .ok cfg2.colors ∧
      cfg2 = { cfg with colors := cfg2.colors } := by
  unfold initColors at h
  cases h1 : forState (initTick cfg) (zone cfg.clockStart cfg.clockEnd) cfg.colors with
  | error e => simp [h1] at h
  | ok c1 =>
    simp only [h1] at h
    cases h2 : forState (initFuture cfg) (zone cfg.minutesStart cfg.minutesEnd) c1 with
    | error e => simp [h2] at h
    | ok c2 =>
      simp only [h2] at h
      cases h3 : forState (initFuture cfg) (zone cfg.secondsStart cfg.secondsEnd) c2 with
      | error e => simp [h3] at h
      | ok c3 =>
        simp only [h3] at h
        have hc : cfg2 = { cfg with colors := c3 } := (Except.ok.inj h).symm
        subst hc
        exact ⟨c1, c2, rfl, h2, h3, rfl⟩

/-- A completed `initColors` changed no field but `colors`, kept the length of
`colors`, and wrote only inside the array. -/
theorem initColors_ok_frame (cfg cfg2 : Config) (h : initColors cfg = .ok cfg2) :
    cfg2 = { cfg with colors := cfg2.colors } ∧
    cfg2.colors.length = cfg.colors.length ∧
    (∀ i, i ∈ zone cfg.clockStart cfg.clockEnd ∨ i ∈ zone cfg.minutesStart cfg.minutesEnd ∨
        i ∈ zone cfg.secondsStart cfg.secondsEnd → 0 ≤ i ∧ i < (cfg.colors.length : Int)) := by
  obtain ⟨c1, c2, h1, h2, h3, h4⟩ := initColors_ok_split cfg cfg2 h
  obtain ⟨l1, b1, _⟩ := forState_write_inv _ (initTick_is_write cfg) _ _ _ h1
  obtain ⟨l2, b2, _⟩ := forState_write_inv _ (initFuture_is_write cfg) _ _ _ h2
  obtain ⟨l3, b3, _⟩ := forState_write_inv _ (initFuture_is_write cfg) _ _ _ h3
  refine ⟨h4, by omega, ?_⟩
  intro i hi
  rcases hi with hi | hi | hi
  · exact b1 i hi
  · have := b2 i hi; omega
  · have := b3 i hi; omega

/-- The `if` chain of `initColors` with all three divisors non-zero. -/
theorem tickColor_ok (cfg : Config) (i : Int) (hH : cfg.intervalHours ≠ 0)
    (hh : cfg.intervalHalves ≠ 0) (hq : cfg.intervalQuarters ≠ 0) :
    tickColor cfg i = .ok
      (if Int.tmod i cfg.intervalHours = 0 then cfg.colorTicksHours
       else if Int.tmod i cfg.intervalHalves = 0 then cfg.colorTicksHalves
       else if Int.tmod i cfg.intervalQuarters = 0 then cfg.colorTicksQuarters
       else cfg.colorFuture) := by
  unfold tickColor cmod
  simp only [hH, hh, hq, if_false]
  split_ifs <;> rfl

/-- The value a completed `initColors` leaves at an index of the hour zone that the
two later loops do not visit. -/
theorem initColors_ok_hour (cfg cfg2 : Config) (h : initColors cfg = .ok cfg2)
    (w : Int → Nat) (hw : ∀ i ∈ zone cfg.clockStart cfg.clockEnd, tickColor cfg i = .ok (w i))
    (j : Nat) (hj : (j : Int) ∈ zone cfg.clockStart cfg.clockEnd)
    (hm : (j : Int) ∉ zone cfg.minutesStart cfg.minutesEnd)
    (hs : (j : Int) ∉ zone cfg.secondsStart cfg.secondsEnd) :
    cfg2.colors.getD j 0 = w j := by
  obtain ⟨c1, c2, h1, h2, h3, _⟩ := initColors_ok_split cfg cfg2 h
  obtain ⟨_, _, k2⟩ := forState_write_inv _ (initFuture_is_write cfg) _ _ _ h2
  obtain ⟨_, _, k3⟩ := forState_write_inv _ (initFuture_is_write cfg) _ _ _ h3
  rw [k3 j hs, k2 j hm]
  have hc : forState (initTick cfg) (zone cfg.clockStart cfg.clockEnd) cfg.colors =
      forState (fun i t => writeColor t i (w i)) (zone cfg.clockStart cfg.clockEnd)
        cfg.colors := by
    apply forState_congr
    intro i hi t
    unfold initTick
    rw [hw i hi]
  rw [hc] at h1
  exact forState_write_val w _ _ _ h1 j hj

/-- The value a completed `initColors` leaves at an index of the minute zone that
the last loop does not visit. -/
theorem initColors_ok_minute (cfg cfg2 : Config) (h : initColors cfg = .ok cfg2)
    (j : Nat) (hj : (j : Int) ∈ zone cfg.minutesStart cfg.minutesEnd)
    (hs : (j : Int) ∉ zone cfg.secondsStart cfg.secondsEnd) :
    cfg2.colors.getD j 0 = cfg.colorFuture := by
  obtain ⟨c1, c2, _, h2, h3, _⟩ := initColors_ok_split cfg cfg2 h
  obtain ⟨_, _, k3⟩ := forState_write_inv _ (initFuture_is_write cfg) _ _ _ h3
  rw [k3 j hs]
  exact forState_write_val (fun _ => cfg.colorFuture) _ _ _ h2 j hj

/-- The value a completed `initColors` leaves at an index of the second zone. -/
theorem initColors_ok_second (cfg cfg2 : Config) (h : initColors cfg = .ok cfg2)
    (j : Nat) (hj : (j : Int) ∈ zone cfg.secondsStart cfg.secondsEnd) :
    cfg2.colors.getD j 0 = cfg.colorFuture := by
  obtain ⟨c1, c2, _, _, h3, _⟩ := initColors_ok_split cfg cfg2 h
  exact forState_write_val (fun _ => cfg.colorFuture) _ _ _ h3 j hj

/-! ## `renderTime`: the trace of a run -/

/-- With non-zero divisors and every zone index inside `colors[]`, `renderTime`
completes, and its trace is the time log followed by one `setPixelColor` per index
of the hour, minute and second zones, in that order. -/
theorem renderTime_ok (cfg : Config) (t : DateTime)
    (hM : cfg.intervalMinutes ≠ 0) (hR : cfg.secondsRepresentation ≠ 0)
    (hb : ∀ i, i ∈ zone cfg.clockStart cfg.clockEnd ∨ i ∈ zone cfg.minutesStart cfg.minutesEnd ∨
        i ∈ zone cfg.secondsStart cfg.secondsEnd → 0 ≤ i ∧ i < (cfg.colors.length : Int)) :
    renderTime cfg t = .ok (logTime t ++
      (zone cfg.clockStart cfg.clockEnd).map (fun i => Effect.setPixelColor i
        (if i < cfg.clockStart + (getHours t - cfg.hoursStart) * cfg.intervalHours
              + Int.tdiv (getMinutes t) cfg.intervalMinutes
         then cfg.colorPast else cfg.colors.getD i.toNat 0)) ++
      (zone cfg.minutesStart cfg.minutesEnd).map (fun i => Effect.setPixelColor i
        (if i < cfg.minutesStart + Int.tmod (getMinutes t) cfg.intervalMinutes
         then cfg.colorCounterMinutes else cfg.colors.getD i.toNat 0)) ++
      (zone cfg.secondsStart cfg.secondsEnd).map (fun i => Effect.setPixelColor i
        (if i < cfg.secondsStart + Int.tdiv (getSeconds t) cfg.secondsRepresentation
         then cfg.colorCounterSeconds else cfg.colors.getD i.toNat 0))) := by
  unfold renderTime currentTimeIndex currentMinuteIndex currentSecondIndex cdiv cmod
  simp only [hM, hR, if_false]
  rw [forEffects_renderPixel cfg _ _ _ (fun i hi => hb i (Or.inl hi)),
    forEffects_renderPixel cfg _ _ _ (fun i hi => hb i (Or.inr (Or.inl hi))),
    forEffects_renderPixel cfg _ _ _ (fun i hi => hb i (Or.inr (Or.inr hi)))]

/-- A closed computation that reports success has a result. -/
theorem exists_ok_of_toBool {α : Type} (x : Except Fault α) (h : x.toBool = true) :
    ∃ a, x = .ok a := by
  cases x with
  | ok a => exact ⟨a, rfl⟩
  | error e => simp [Except.toBool] at h

/-- A completed `initColors` returns the configuration it was given with a new
`colors` array of the same length, every zone index lying inside that array. -/
theorem initColors_ok_shape (cfg cfg2 : Config) (h : initColors cfg = .ok cfg2) :
    (∃ cs, cfg2 = { cfg with colors := cs }) ∧
    (∀ i, i ∈ zone cfg2.clockStart cfg2.clockEnd ∨
        i ∈ zone cfg2.minutesStart cfg2.minutesEnd ∨
        i ∈ zone cfg2.secondsStart cfg2.secondsEnd →
        0 ≤ i ∧ i < (cfg2.colors.length : Int)) := by
  obtain ⟨hfr, hlen, hbd⟩ := initColors_ok_frame cfg cfg2 h
  refine ⟨⟨cfg2.colors, hfr⟩, ?_⟩
  intro i hi
  rw [hlen]
  apply hbd
  rw [hfr] at hi
  exact hi

/-- After a completed `initColors`, every index of the minute and second zones
holds the future colour. -/
theorem initColors_ok_counter (cfg cfg2 : Config) (h : initColors cfg = .ok cfg2)
    (i : Int) (hi : i ∈ zone cfg2.minutesStart cfg2.minutesEnd ∨
      i ∈ zone cfg2.secondsStart cfg2.secondsEnd) :
    cfg2.colors.getD i.toNat 0 = cfg2.colorFuture := by
  obtain ⟨⟨cs, hcs⟩, hbd⟩ := initColors_ok_shape cfg cfg2 h
  have hib := hbd i (Or.inr hi)
  have hcast : ((i.toNat : Nat) : Int) = i := Int.toNat_of_nonneg hib.1
  have hf : cfg2.colorFuture = cfg.colorFuture := by rw [hcs]
  have hi2 : i ∈ zone cfg.minutesStart cfg.minutesEnd ∨
      i ∈ zone cfg.secondsStart cfg.secondsEnd := by
    rw [hcs] at hi; exact hi
  rw [hf]
  by_cases hs : i ∈ zone cfg.secondsStart cfg.secondsEnd
  · exact initColors_ok_second cfg cfg2 h i.toNat (by rw [hcast]; exact hs)
  · rcases hi2 with hm | hs2
    · exact initColors_ok_minute cfg cfg2 h i.toNat (by rw [hcast]; exact hm)
        (by rw [hcast]; exact hs)
    · exact absurd hs2 hs

/-- On a configuration on which `initColors` has completed, `renderTime` with
non-zero divisors completes with the trace described in `renderTime_ok`. -/
theorem renderTime_after_init (cfg cfg2 : Config) (t : DateTime)
    (h : initColors cfg = .ok cfg2)
    (hM : cfg2.intervalMinutes ≠ 0) (hR : cfg2.secondsRepresentation ≠ 0) :
    renderTime cfg2 t = .ok (logTime t ++
      (zone cfg2.clockStart cfg2.clockEnd).map (fun i => Effect.setPixelColor i
        (if i < cfg2.clockStart + (getHours t - cfg2.hoursStart) * cfg2.intervalHours
              + Int.tdiv (getMinutes t) cfg2.intervalMinutes
         then cfg2.colorPast else cfg2.colors.getD i.toNat 0)) ++
      (zone cfg2.minutesStart cfg2.minutesEnd).map (fun i => Effect.setPixelColor i
        (if i < cfg2.minutesStart + Int.tmod (getMinutes t) cfg2.intervalMinutes
         then cfg2.colorCounterMinutes else cfg2.colors.getD i.toNat 0)) ++
      (zone cfg2.secondsStart cfg2.secondsEnd).map (fun i => Effect.setPixelColor i
        (if i < cfg2.secondsStart + Int.tdiv (getSeconds t) cfg2.secondsRepresentation
         then cfg2.colorCounterSeconds else cfg2.colors.getD i.toNat 0))) :=
  renderTime_ok cfg2 t hM hR (initColors_ok_shape cfg cfg2 h).2

/-- The shipped configuration passes `initColors`. -/
theorem initColors_shipped_ok : ∃ cfg2, initColors shippedConfig = .ok cfg2 :=
  exists_ok_of_toBool _ (by decide)

/-- The fields `initColors` leaves alone, at the shipped configuration. -/
theorem initColors_shipped_fields (cfg2 : Config) (h : initColors shippedConfig = .ok cfg2) :
    cfg2.intervalMinutes = 5 ∧ cfg2.secondsRepresentation = 15 ∧ cfg2.ZoneLayout := by
  obtain ⟨⟨cs, hcs⟩, -⟩ := initColors_ok_shape _ _ h
  subst hcs
  exact ⟨rfl, rfl, (by decide : shippedConfig.ZoneLayout)⟩

/-! ## Claims about the hour-track boundary and the static colour table -/

/-- C1: in a configuration laid out as in `struct Config`, with positive
`intervalHours` and `intervalMinutes` whose product is 60, for every hour of the
active window and every minute in `[0,60)`, the hour-track fill boundary
`clockStart + (hour - hoursStart) * intervalHours + minute / intervalMinutes`
computed by `renderTime` is defined and lies in `[clockStart, clockEnd)`. -/
theorem C1_timeIndex_within_hour_zone (cfg : Config) (hour minute : Int)
    (hL : cfg.ZoneLayout) (hH : 0 < cfg.intervalHours) (hM : 0 < cfg.intervalMinutes)
    (hP : cfg.intervalHours * cfg.intervalMinutes = 60)
    (h1 : cfg.hoursStart ≤ hour) (h2 : hour < cfg.hoursStart + cfg.totalHours)
    (m1 : 0 ≤ minute) (m2 : minute < 60) :
    ∃ timeIndex, currentTimeIndex cfg hour minute = .ok timeIndex ∧
      timeIndex = cfg.clockStart + (hour - cfg.hoursStart) * cfg.intervalHours
        + Int.tdiv minute cfg.intervalMinutes ∧
      cfg.clockStart ≤ timeIndex ∧ timeIndex < cfg.clockEnd ∧
      cfg.clockEnd = cfg.totalHours * cfg.intervalHours := by
  obtain ⟨hcs, hce, -⟩ := hL
  have hne : cfg.intervalMinutes ≠ 0 := by omega
  refine ⟨_, ?_, rfl, ?_, ?_, hce⟩
  · unfold currentTimeIndex cdiv
    simp [hne]
  · have hq : 0 ≤ Int.tdiv minute cfg.intervalMinutes :=
      Int.tdiv_nonneg m1 (le_of_lt hM)
    have hp : 0 ≤ (hour - cfg.hoursStart) * cfg.intervalHours :=
      mul_nonneg (by omega) (le_of_lt hH)
    omega
  · have hq : Int.tdiv minute cfg.intervalMinutes < cfg.intervalHours := by
      rw [Int.tdiv_eq_ediv m1 (le_of_lt hM)]
      apply Int.ediv_lt_of_lt_mul hM
      rw [hP]; exact m2
    have hp : (hour - cfg.hoursStart) * cfg.intervalHours ≤
        (cfg.totalHours - 1) * cfg.intervalHours :=
      mul_le_mul_of_nonneg_right (by omega) (le_of_lt hH)
    rw [hce, hcs]
    nlinarith

/-- C1 at the shipped configuration, 07:05. -/
theorem C1_timeIndex_within_hour_zone_witness :
    shippedConfig.ZoneLayout ∧ 0 < shippedConfig.intervalHours ∧
    0 < shippedConfig.intervalMinutes ∧
    shippedConfig.intervalHours * shippedConfig.intervalMinutes = 60 ∧
    ∃ timeIndex, currentTimeIndex shippedConfig 7 5 = .ok timeIndex ∧
      timeIndex = shippedConfig.clockStart + (7 - shippedConfig.hoursStart) *
        shippedConfig.intervalHours + Int.tdiv 5 shippedConfig.intervalMinutes ∧
      shippedConfig.clockStart ≤ timeIndex ∧ timeIndex < shippedConfig.clockEnd ∧
      shippedConfig.clockEnd = shippedConfig.totalHours * shippedConfig.intervalHours :=
  ⟨by decide, by decide, by decide, by decide,
    C1_timeIndex_within_hour_zone shippedConfig 7 5 (by decide) (by decide) (by decide)
      (by decide) (by decide) (by decide) (by decide) (by decide)⟩

/-- C2 as stated fails: in `negativeMinutesConfig` (positive `intervalHours`, non-zero
`intervalHalves` and `intervalQuarters`) `initColors` completes, index 153 lies in
the hour zone and its first matching test is the quarter test (`153 % 12 = 9`,
`153 % 6 = 3`, `153 % 3 = 0`), yet `colors[153]` is the future colour and not the
quarter-tick colour: the loop over the second zone has overwritten it. -/
theorem C2_counterexample :
    negativeMinutesConfig.ZoneLayout ∧
    0 < negativeMinutesConfig.intervalHours ∧
    negativeMinutesConfig.intervalHalves ≠ 0 ∧
    negativeMinutesConfig.intervalQuarters ≠ 0 ∧
    negativeMinutesConfig.clockStart ≤ 153 ∧ 153 < negativeMinutesConfig.clockEnd ∧
    tickColor negativeMinutesConfig 153 = .ok negativeMinutesConfig.colorTicksQuarters ∧
    Except.map (fun c => readColor c.colors 153) (initColors negativeMinutesConfig)
      = .ok (.ok negativeMinutesConfig.colorFuture) ∧
    negativeMinutesConfig.colorFuture ≠ negativeMinutesConfig.colorTicksQuarters := by
  decide

/-- C2 (amended): in a configuration laid out as in `struct Config` with non-negative
`intervalMinutes`, positive `intervalHours` and non-zero `intervalHalves` and
`intervalQuarters`, after a completed `initColors` every index `i` of
`[clockStart, clockEnd)` holds the colour of the first matching test in the order
hour, half, quarter, else the future colour; hence the hour-tick colour wherever
`i % intervalHours == 0`, in particular at index 0. -/
theorem C2_tick_classification (cfg cfg2 : Config) (i : Int)
    (hL : cfg.ZoneLayout) (hM : 0 ≤ cfg.intervalMinutes)
    (hH : 0 < cfg.intervalHours) (hh : cfg.intervalHalves ≠ 0)
    (hq : cfg.intervalQuarters ≠ 0)
    (hrun : initColors cfg = .ok cfg2)
    (h1 : cfg.clockStart ≤ i) (h2 : i < cfg.clockEnd) :
    readColor cfg2.colors i = .ok
      (if Int.tmod i cfg.intervalHours = 0 then cfg.colorTicksHours
       else if Int.tmod i cfg.intervalHalves = 0 then cfg.colorTicksHalves
       else if Int.tmod i cfg.intervalQuarters = 0 then cfg.colorTicksQuarters
       else cfg.colorFuture) ∧
    (Int.tmod i cfg.intervalHours = 0 → readColor cfg2.colors i = .ok cfg.colorTicksHours) ∧
    (i = 0 → readColor cfg2.colors i = .ok cfg.colorTicksHours) := by
  obtain ⟨hcs, hce, hms, hme, hss, hse⟩ := hL
  obtain ⟨hfr, hlen, hbd⟩ := initColors_ok_frame cfg cfg2 hrun
  have hiz : i ∈ zone cfg.clockStart cfg.clockEnd := (mem_zone _ _ _).mpr ⟨h1, h2⟩
  have hib := hbd i (Or.inl hiz)
  have hcast : ((i.toNat : Nat) : Int) = i := Int.toNat_of_nonneg hib.1
  have hval := initColors_ok_hour cfg cfg2 hrun _
    (fun k _ => tickColor_ok cfg k (by omega) hh hq) i.toNat
    (by rw [hcast]; exact hiz)
    (by rw [hcast, mem_zone]; omega)
    (by rw [hcast, mem_zone]; omega)
  rw [hcast] at hval
  have hrd : readColor cfg2.colors i = .ok (cfg2.colors.getD i.toNat 0) :=
    readColor_ok _ _ hib.1 (by rw [hlen]; exact hib.2)
  rw [hrd, hval]
  refine ⟨rfl, ?_, ?_⟩
  · intro h0
    rw [if_pos h0]
  · intro h0
    subst h0
    simp

/-- C2 (amended) at the shipped configuration, index 18 (a half tick). -/
theorem C2_tick_classification_witness :
    shippedConfig.ZoneLayout ∧ 0 ≤ shippedConfig.intervalMinutes ∧
    0 < shippedConfig.intervalHours ∧ shippedConfig.intervalHalves ≠ 0 ∧
    shippedConfig.intervalQuarters ≠ 0 ∧
    ∃ cfg2, initColors shippedConfig = .ok cfg2 ∧
      readColor cfg2.colors 18 = .ok shippedConfig.colorTicksHalves := by
  obtain ⟨cfg2, hrun⟩ := initColors_shipped_ok
  refine ⟨by decide, by decide, by decide, by decide, by decide, cfg2, hrun, ?_⟩
  rw [(C2_tick_classification shippedConfig cfg2 18 (by decide) (by decide) (by decide)
    (by decide) (by decide) hrun (by decide) (by decide)).1]
  decide

/-! ## Claims about the trace of `renderTime` -/

/-- C3 as stated fails: `initColors` completes on `zeroSecondsConfig`, but
`renderTime` on the result divides by `secondsRepresentation = 0` (line 276) before
any pixel is assigned. -/
theorem C3_counterexample :
    Except.map (fun c => renderTime c ⟨2024, 1, 1, 7, 5, 30⟩) (initColors zeroSecondsConfig)
      = .ok (.error .divByZero) := by
  decide

/-- C3 (amended): on a configuration on which `initColors` has completed and whose
`intervalMinutes` and `secondsRepresentation` are non-zero, for every sampled time
`renderTime` completes; with `timeIndex = clockStart + (hour - hoursStart) *
intervalHours + minute / intervalMinutes`, its trace is the time log, then for each
`i` of `[clockStart, clockEnd)` in order one `setPixelColor(i, c)` where `c` is
`colorPast` when `i < timeIndex` and `colors[i]` otherwise, then only writes to
indices of the minute and second zones. -/
theorem C3_hour_zone_pixels (cfg cfg2 : Config) (t : DateTime)
    (hrun : initColors cfg = .ok cfg2)
    (hM : cfg2.intervalMinutes ≠ 0) (hR : cfg2.secondsRepresentation ≠ 0) :
    ∃ timeIndex rest,
      currentTimeIndex cfg2 (getHours t) (getMinutes t) = .ok timeIndex ∧
      timeIndex = cfg2.clockStart + (getHours t - cfg2.hoursStart) * cfg2.intervalHours
        + Int.tdiv (getMinutes t) cfg2.intervalMinutes ∧
      renderTime cfg2 t = .ok (logTime t ++
        (zone cfg2.clockStart cfg2.clockEnd).map (fun i => Effect.setPixelColor i
          (if i < timeIndex then cfg2.colorPast else cfg2.colors.getD i.toNat 0)) ++ rest) ∧
      (∀ i, cfg2.clockStart ≤ i → i < cfg2.clockEnd →
        readColor cfg2.colors i = .ok (cfg2.colors.getD i.toNat 0)) ∧
      (∀ e ∈ rest, ∃ n c, e = Effect.setPixelColor n c ∧
        (n ∈ zone cfg2.minutesStart cfg2.minutesEnd ∨
         n ∈ zone cfg2.secondsStart cfg2.secondsEnd)) := by
  have hbd := (initColors_ok_shape cfg cfg2 hrun).2
  refine ⟨cfg2.clockStart + (getHours t - cfg2.hoursStart) * cfg2.intervalHours
      + Int.tdiv (getMinutes t) cfg2.intervalMinutes,
    (zone cfg2.minutesStart cfg2.minutesEnd).map (fun i => Effect.setPixelColor i
      (if i < cfg2.minutesStart + Int.tmod (getMinutes t) cfg2.intervalMinutes
       then cfg2.colorCounterMinutes else cfg2.colors.getD i.toNat 0)) ++
    (zone cfg2.secondsStart cfg2.secondsEnd).map (fun i => Effect.setPixelColor i
      (if i < cfg2.secondsStart + Int.tdiv (getSeconds t) cfg2.secondsRepresentation
       then cfg2.colorCounterSeconds else cfg2.colors.getD i.toNat 0)),
    ?_, rfl, ?_, ?_, ?_⟩
  rotate_left
  · rw [renderTime_after_init cfg cfg2 t hrun hM hR]
    simp only [List.append_assoc]
  · intro i h1 h2
    have hib := hbd i (Or.inl ((mem_zone _ _ _).mpr ⟨h1, h2⟩))
    exact readColor_ok _ _ hib.1 hib.2
  · intro e he
    rcases List.mem_append.mp he with he | he
    · obtain ⟨n, hn, rfl⟩ := List.mem_map.mp he
      exact ⟨n, _, rfl, Or.inl hn⟩
    · obtain ⟨n, hn, rfl⟩ := List.mem_map.mp he
      exact ⟨n, _, rfl, Or.inr hn⟩
  · unfold currentTimeIndex cdiv
    simp [hM]

/-- C3 (amended) at the shipped configuration, 07:05:30: `timeIndex = 13`. -/
theorem C3_hour_zone_pixels_witness :
    ∃ cfg2, initColors shippedConfig = .ok cfg2 ∧
      cfg2.intervalMinutes ≠ 0 ∧ cfg2.secondsRepresentation ≠ 0 ∧
      ∃ timeIndex rest,
        currentTimeIndex cfg2 (getHours ⟨2024, 1, 1, 7, 5, 30⟩)
          (getMinutes ⟨2024, 1, 1, 7, 5, 30⟩) = .ok timeIndex ∧
        timeIndex = cfg2.clockStart + (getHours ⟨2024, 1, 1, 7, 5, 30⟩ - cfg2.hoursStart)
          * cfg2.intervalHours
          + Int.tdiv (getMinutes ⟨2024, 1, 1, 7, 5, 30⟩) cfg2.intervalMinutes ∧
        renderTime cfg2 ⟨2024, 1, 1, 7, 5, 30⟩ = .ok (logTime ⟨2024, 1, 1, 7, 5, 30⟩ ++
          (zone cfg2.clockStart cfg2.clockEnd).map (fun i => Effect.setPixelColor i
            (if i < timeIndex then cfg2.colorPast else cfg2.colors.getD i.toNat 0)) ++ rest) ∧
        (∀ i, cfg2.clockStart ≤ i → i < cfg2.clockEnd →
          readColor cfg2.colors i = .ok (cfg2.colors.getD i.toNat 0)) ∧
        (∀ e ∈ rest, ∃ n c, e = Effect.setPixelColor n c ∧
          (n ∈ zone cfg2.minutesStart cfg2.minutesEnd ∨
           n ∈ zone cfg2.secondsStart cfg2.secondsEnd)) := by
  obtain ⟨cfg2, hrun⟩ := initColors_shipped_ok
  obtain ⟨hm, hr, -⟩ := initColors_shipped_fields cfg2 hrun
  have hM : cfg2.intervalMinutes ≠ 0 := by rw [hm]; decide
  have hR : cfg2.secondsRepresentation ≠ 0 := by rw [hr]; decide
  exact ⟨cfg2, hrun, hM, hR, C3_hour_zone_pixels shippedConfig cfg2 _ hrun hM hR⟩

/-- C4 as stated fails: `zeroSecondsConfig` has positive `intervalMinutes`
and passes `initColors`, the minute 7 lies in `[0,60)`, but `renderTime` divides by
`secondsRepresentation = 0` (line 276) and assigns no minute-zone pixel. -/
theorem C4_counterexample :
    0 < zeroSecondsConfig.intervalMinutes ∧
    Except.map (fun c => renderTime c ⟨2024, 1, 1, 9, 7, 0⟩)
      (initColors zeroSecondsConfig) = .ok (.error .divByZero) := by
  decide

/-- C4 (amended): on a configuration on which `initColors` has completed, with
positive `intervalMinutes` and non-zero `secondsRepresentation`, for every sampled
time `renderTime` completes and its trace contains, for each `i` of
`[minutesStart, minutesEnd)` in order, one `setPixelColor(i, c)` where `c` is
`colorCounterMinutes` when `i < minutesStart + minute % intervalMinutes` and
`colorFuture` otherwise; the indices that get `colorCounterMinutes` are exactly
`minutesStart + k` with `0 <= k < minute % intervalMinutes`.  When the zones are laid
out as in `struct Config`, no other call of the trace touches the minute zone. -/
theorem C4_minute_zone_pixels (cfg cfg2 : Config) (t : DateTime)
    (hrun : initColors cfg = .ok cfg2)
    (hM : 0 < cfg2.intervalMinutes) (hR : cfg2.secondsRepresentation ≠ 0) :
    ∃ before after,
      renderTime cfg2 t = .ok (before ++
        (zone cfg2.minutesStart cfg2.minutesEnd).map (fun i => Effect.setPixelColor i
          (if i < cfg2.minutesStart + Int.tmod (getMinutes t) cfg2.intervalMinutes
           then cfg2.colorCounterMinutes else cfg2.colorFuture)) ++ after) ∧
      (∀ i, i < cfg2.minutesStart + Int.tmod (getMinutes t) cfg2.intervalMinutes ∧
          i ∈ zone cfg2.minutesStart cfg2.minutesEnd ↔
        ∃ k, 0 ≤ k ∧ k < Int.tmod (getMinutes t) cfg2.intervalMinutes ∧
          i = cfg2.minutesStart + k ∧ i < cfg2.minutesEnd) ∧
      (cfg2.ZoneLayout → ∀ e ∈ before ++ after, ∀ n c, e = Effect.setPixelColor n c →
        n ∉ zone cfg2.minutesStart cfg2.minutesEnd) := by
  have hM0 : cfg2.intervalMinutes ≠ 0 := by omega
  refine ⟨logTime t ++
    (zone cfg2.clockStart cfg2.clockEnd).map (fun i => Effect.setPixelColor i
      (if i < cfg2.clockStart + (getHours t - cfg2.hoursStart) * cfg2.intervalHours
            + Int.tdiv (getMinutes t) cfg2.intervalMinutes
       then cfg2.colorPast else cfg2.colors.getD i.toNat 0)),
    (zone cfg2.secondsStart cfg2.secondsEnd).map (fun i => Effect.setPixelColor i
      (if i < cfg2.secondsStart + Int.tdiv (getSeconds t) cfg2.secondsRepresentation
       then cfg2.colorCounterSeconds else cfg2.colors.getD i.toNat 0)),
    ?_, ?_, ?_⟩
  rotate_left
  · intro i
    rw [mem_zone]
    constructor
    · rintro ⟨h1, h2, h3⟩
      exact ⟨i - cfg2.minutesStart, by omega, by omega, by omega, h3⟩
    · rintro ⟨k, h1, h2, rfl, h3⟩
      omega
  rotate_left
  · rw [renderTime_after_init cfg cfg2 t hrun hM0 hR]
    congr 2
    congr 1
    apply List.map_congr_left
    intro i hi
    rw [initColors_ok_counter cfg cfg2 hrun i (Or.inl hi)]
  · rintro ⟨hcs, hce, hms, hme, hss, hse⟩ e he n c rfl
    rw [mem_zone]
    rcases List.mem_append.mp he with he | he
    · rcases List.mem_append.mp he with he | he
      · simp [logTime] at he
      · obtain ⟨k, hk, hkeq⟩ := List.mem_map.mp he
        rw [mem_zone] at hk
        injection hkeq with hkn _
        omega
    · obtain ⟨k, hk, hkeq⟩ := List.mem_map.mp he
      rw [mem_zone] at hk
      injection hkeq with hkn _
      omega

/-- C4 (amended) at the shipped configuration, 09:07:00: `7 % 5 = 2` pixels of the
minute zone `[156,161)` are elapsed. -/
theorem C4_minute_zone_pixels_witness :
    ∃ cfg2 before after, initColors shippedConfig = .ok cfg2 ∧
      0 < cfg2.intervalMinutes ∧ cfg2.secondsRepresentation ≠ 0 ∧
      renderTime cfg2 ⟨2024, 1, 1, 9, 7, 0⟩ = .ok (before ++
        [Effect.setPixelColor 156 shippedConfig.colorCounterMinutes,
         Effect.setPixelColor 157 shippedConfig.colorCounterMinutes,
         Effect.setPixelColor 158 shippedConfig.colorFuture,
         Effect.setPixelColor 159 shippedConfig.colorFuture,
         Effect.setPixelColor 160 shippedConfig.colorFuture] ++ after) := by
  obtain ⟨cfg2, hrun⟩ := initColors_shipped_ok
  obtain ⟨⟨cs, hcs⟩, -⟩ := initColors_ok_shape _ _ hrun
  obtain ⟨hm, hr, -⟩ := initColors_shipped_fields cfg2 hrun
  have hM : 0 < cfg2.intervalMinutes := by rw [hm]; decide
  have hR : cfg2.secondsRepresentation ≠ 0 := by rw [hr]; decide
  obtain ⟨before, after, h, -, -⟩ :=
    C4_minute_zone_pixels shippedConfig cfg2 ⟨2024, 1, 1, 9, 7, 0⟩ hrun hM hR
  refine ⟨cfg2, before, after, hrun, hM, hR, ?_⟩
  rw [h, hcs]
  rfl

/-! ## Claims about one pass of `loop` -/

/-- What `inClockRange` tests. -/
theorem inClockRange_iff (cfg : Config) (hours : Int) :
    inClockRange cfg hours = true ↔
      cfg.hoursStart ≤ hours ∧ hours < cfg.hoursStart + cfg.totalHours := by
  unfold inClockRange
  simp

/-- Every effect of a completed rendering loop is a `setPixelColor`. -/
theorem forEffects_renderPixel_setPixel (cfg : Config) (boundary : Int) (elapsed : Nat) :
    ∀ (is : List Int) (es : List Effect),
      forEffects (renderPixel cfg boundary elapsed) is = .ok es →
      ∀ e ∈ es, e.isSetPixel = true := by
  intro is
  induction is with
  | nil =>
    intro es h e he
    simp [forEffects] at h
    subst h
    simp at he
  | cons i is ih =>
    intro es h e he
    simp only [forEffects] at h
    cases hb : renderPixel cfg boundary elapsed i with
    | error x => simp [hb] at h
    | ok e1 =>
      simp only [hb] at h
      cases hr : forEffects (renderPixel cfg boundary elapsed) is with
      | error x => simp [hr] at h
      | ok rest =>
        simp only [hr] at h
        have hes : es = e1 ++ rest := (Except.ok.inj h).symm
        subst hes
        rcases List.mem_append.mp he with he | he
        · unfold renderPixel at hb
          split at hb
          · have : e1 = [Effect.setPixelColor i elapsed] := (Except.ok.inj hb).symm
            subst this
            simp at he
            subst he
            rfl
          · cases hc : readColor cfg.colors i with
            | error x => simp [hc] at hb
            | ok c =>
              simp only [hc] at hb
              have : e1 = [Effect.setPixelColor i c] := (Except.ok.inj hb).symm
              subst this
              simp at he
              subst he
              rfl
        · exact ih rest hr e he

/-- A completed `renderTime` has issued the time log and `setPixelColor` calls only. -/
theorem renderTime_effects (cfg : Config) (t : DateTime) (es : List Effect)
    (h : renderTime cfg t = .ok es) :
    ∃ px, es = logTime t ++ px ∧ ∀ e ∈ px, e.isSetPixel = true := by
  unfold renderTime at h
  simp only at h
  cases h0 : currentTimeIndex cfg (getHours t) (getMinutes t) with
  | error x => simp [h0] at h
  | ok ti =>
    simp only [h0] at h
    cases h1 : currentMinuteIndex cfg (getMinutes t) with
    | error x => simp [h1] at h
    | ok mi =>
      simp only [h1] at h
      cases h2 : currentSecondIndex cfg (getSeconds t) with
      | error x => simp [h2] at h
      | ok si =>
        simp only [h2] at h
        cases h3 : forEffects (renderPixel cfg ti cfg.colorPast)
            (zone cfg.clockStart cfg.clockEnd) with
        | error x => simp [h3] at h
        | ok e1 =>
          simp only [h3] at h
          cases h4 : forEffects (renderPixel cfg mi cfg.colorCounterMinutes)
              (zone cfg.minutesStart cfg.minutesEnd) with
          | error x => simp [h4] at h
          | ok e2 =>
            simp only [h4] at h
            cases h5 : forEffects (renderPixel cfg si cfg.colorCounterSeconds)
                (zone cfg.secondsStart cfg.secondsEnd) with
            | error x => simp [h5] at h
            | ok e3 =>
              simp only [h5] at h
              have hes : es = logTime t ++ e1 ++ e2 ++ e3 := (Except.ok.inj h).symm
              refine ⟨e1 ++ e2 ++ e3, by simp [hes], ?_⟩
              intro e he
              rcases List.mem_append.mp he with he | he
              · rcases List.mem_append.mp he with he | he
                · exact forEffects_renderPixel_setPixel _ _ _ _ _ h3 e he
                · exact forEffects_renderPixel_setPixel _ _ _ _ _ h4 e he
              · exact forEffects_renderPixel_setPixel _ _ _ _ _ h5 e he

/-- C5 at its failing input: the shipped configuration after `setup()`, the latch
unset, and two consecutive changed samples at 05:00:00 and 05:00:01, both outside
the window `[6,19)`.  The first pass of `loop` sets the latch after issuing
`strip.clear()` 165 times and `strip.show()` 165 times, not once; the second pass
issues no driver call. -/
theorem C5_blanking_issues_165_clear_and_show :
    Except.map (fun r => (r.1, r.2.count Effect.stripClear, r.2.count Effect.stripShow))
      ((initColors shippedConfig).bind (fun c =>
        loop c ⟨⟨2000, 1, 1, 0, 0, 0⟩, false⟩ ⟨2024, 1, 1, 5, 0, 0⟩))
      = .ok (⟨⟨2024, 1, 1, 5, 0, 0⟩, true⟩, 165, 165) ∧
    Except.map (fun r => (r.1, r.2.count Effect.stripClear, r.2.count Effect.stripShow))
      ((initColors shippedConfig).bind (fun c =>
        loop c ⟨⟨2024, 1, 1, 5, 0, 0⟩, true⟩ ⟨2024, 1, 1, 5, 0, 1⟩))
      = .ok (⟨⟨2024, 1, 1, 5, 0, 1⟩, true⟩, 0, 0) := by
  decide

/-- C6: when the `alreadyOff` latch is set and the new sample differs from the
previous one but its hour is outside the active window, one pass of `loop`
completes having issued only the console line "not in clock range!": no
`setPixelColor`, `clear` or `show`, no `renderTime` (whose trace would start with
the time log), and the latch stays set. -/
theorem C6_blanked_pass_issues_no_driver_call (cfg : Config) (s : LoopState) (now : DateTime)
    (hoff : s.alreadyOff = true) (hch : now ≠ s.last)
    (hout : ¬ (cfg.hoursStart ≤ getHours now ∧
      getHours now < cfg.hoursStart + cfg.totalHours)) :
    loop cfg s now = .ok ({ last := now, alreadyOff := true },
      [Effect.serialPrintln "not in clock range!"]) ∧
    ∀ e ∈ [Effect.serialPrintln "not in clock range!"],
      e.isLedCall = false ∧ ∀ v, e ≠ Effect.serialPrintInt v := by
  have hr : inClockRange cfg (getHours now) = false := by
    rw [← Bool.not_eq_true, inClockRange_iff]; exact hout
  constructor
  · unfold loop
    simp [hch, hr, hoff]
  · intro e he
    simp at he
    subst he
    exact ⟨rfl, fun v h => Effect.noConfusion h⟩

/-- C6 at the shipped configuration: latch set, sample 05:00:01 after 05:00:00, window
`[6,19)`. -/
theorem C6_blanked_pass_issues_no_driver_call_witness :
    (⟨⟨2024, 1, 1, 5, 0, 0⟩, true⟩ : LoopState).alreadyOff = true ∧
    (⟨2024, 1, 1, 5, 0, 1⟩ : DateTime) ≠ (⟨⟨2024, 1, 1, 5, 0, 0⟩, true⟩ : LoopState).last ∧
    ¬ (shippedConfig.hoursStart ≤ getHours ⟨2024, 1, 1, 5, 0, 1⟩ ∧
      getHours ⟨2024, 1, 1, 5, 0, 1⟩ < shippedConfig.hoursStart + shippedConfig.totalHours) ∧
    loop shippedConfig ⟨⟨2024, 1, 1, 5, 0, 0⟩, true⟩ ⟨2024, 1, 1, 5, 0, 1⟩ =
      .ok ({ last := ⟨2024, 1, 1, 5, 0, 1⟩, alreadyOff := true },
        [Effect.serialPrintln "not in clock range!"]) :=
  ⟨by decide, by decide, by decide,
    (C6_blanked_pass_issues_no_driver_call shippedConfig ⟨⟨2024, 1, 1, 5, 0, 0⟩, true⟩
      ⟨2024, 1, 1, 5, 0, 1⟩ (by decide) (by decide) (by decide)).1⟩

/-- C7: in one pass of `loop` with a changed sample, `inClockRange` holds exactly
when `hoursStart <= hour < hoursStart + totalHours`.  When it holds the pass is
`renderTime` followed by one `strip.show()`: it completes exactly when `renderTime`
does, its trace is the trace of `renderTime` (time log and `setPixelColor` calls, no
`clear`, no `show`) followed by one `show`, the latch is false whatever it was, and
`last` is the sample.  When it does not hold the pass completes without invoking
`renderTime`: `last` is the sample, and the trace has neither a `setPixelColor` nor
the time log. -/
theorem C7_dispatch_of_changed_sample (cfg : Config) (s : LoopState) (now : DateTime)
    (hch : now ≠ s.last) :
    (inClockRange cfg (getHours now) = true ↔
      cfg.hoursStart ≤ getHours now ∧ getHours now < cfg.hoursStart + cfg.totalHours) ∧
    (inClockRange cfg (getHours now) = true →
      loop cfg s now = Except.map
        (fun es => (({ last := now, alreadyOff := false } : LoopState),
          es ++ [Effect.stripShow]))
        (renderTime cfg now) ∧
      ∀ es, renderTime cfg now = .ok es →
        Effect.stripClear ∉ es ∧ Effect.stripShow ∉ es ∧
        ∃ px, es = logTime now ++ px ∧ ∀ e ∈ px, e.isSetPixel = true) ∧
    (inClockRange cfg (getHours now) = false →
      ∃ es, loop cfg s now = .ok ({ last := now, alreadyOff := true }, es) ∧
        ∀ e ∈ es, e.isSetPixel = false ∧ ∀ v, e ≠ Effect.serialPrintInt v) := by
  refine ⟨inClockRange_iff cfg _, ?_, ?_⟩
  · intro hin
    constructor
    · unfold loop
      simp only [hch, hin, ne_eq, not_false_eq_true, if_true]
      cases renderTime cfg now with
      | error e => rfl
      | ok es => rfl
    · intro es hes
      obtain ⟨px, hpx, hset⟩ := renderTime_effects cfg now es hes
      refine ⟨?_, ?_, px, hpx, hset⟩
      · intro hmem
        rw [hpx] at hmem
        rcases List.mem_append.mp hmem with h | h
        · simp [logTime] at h
        · have := hset _ h
          simp [Effect.isSetPixel] at this
      · intro hmem
        rw [hpx] at hmem
        rcases List.mem_append.mp hmem with h | h
        · simp [logTime] at h
        · have := hset _ h
          simp [Effect.isSetPixel] at this
  · intro hout
    unfold loop
    simp only [hch, hout, ne_eq, not_false_eq_true, if_true]
    cases hoff : s.alreadyOff with
    | false =>
      refine ⟨_, rfl, ?_⟩
      intro e he
      rcases List.mem_cons.mp he with h | h
      · subst h
        exact ⟨rfl, fun v h => Effect.noConfusion h⟩
      · unfold blankStrip at h
        obtain ⟨_, _, hm⟩ := List.mem_flatMap.mp h
        simp at hm
        rcases hm with h | h <;> subst h <;>
          exact ⟨rfl, fun v h => Effect.noConfusion h⟩
    | true =>
      refine ⟨_, rfl, ?_⟩
      intro e he
      simp at he
      subst he
      exact ⟨rfl, fun v h => Effect.noConfusion h⟩

/-- C7 at the shipped configuration: first sample 07:05:30 after startup. -/
theorem C7_dispatch_of_changed_sample_witness :
    (⟨2024, 1, 1, 7, 5, 30⟩ : DateTime) ≠
      (⟨⟨2000, 1, 1, 0, 0, 0⟩, false⟩ : LoopState).last ∧
    inClockRange shippedConfig (getHours ⟨2024, 1, 1, 7, 5, 30⟩) = true ∧
    loop shippedConfig ⟨⟨2000, 1, 1, 0, 0, 0⟩, false⟩ ⟨2024, 1, 1, 7, 5, 30⟩ =
      Except.map
        (fun es => (({ last := ⟨2024, 1, 1, 7, 5, 30⟩, alreadyOff := false } : LoopState),
          es ++ [Effect.stripShow]))
        (renderTime shippedConfig ⟨2024, 1, 1, 7, 5, 30⟩) :=
  ⟨by decide, by decide,
    ((C7_dispatch_of_changed_sample shippedConfig ⟨⟨2000, 1, 1, 0, 0, 0⟩, false⟩
      ⟨2024, 1, 1, 7, 5, 30⟩ (by decide)).2.1 (by decide)).1⟩

/-! ## Claims about the zone layout -/

/-- In a configuration laid out as in `struct Config` with non-negative
`intervalMinutes`, no index lies in two zones. -/
theorem zones_disjoint (cfg : Config) (hL : cfg.ZoneLayout) (hM : 0 ≤ cfg.intervalMinutes)
    (i : Int) :
    ¬ (i ∈ zone cfg.clockStart cfg.clockEnd ∧ i ∈ zone cfg.minutesStart cfg.minutesEnd) ∧
    ¬ (i ∈ zone cfg.minutesStart cfg.minutesEnd ∧ i ∈ zone cfg.secondsStart cfg.secondsEnd) ∧
    ¬ (i ∈ zone cfg.clockStart cfg.clockEnd ∧ i ∈ zone cfg.secondsStart cfg.secondsEnd) := by
  obtain ⟨hcs, hce, hms, hme, hss, hse⟩ := hL
  simp only [mem_zone]
  omega

/-- C8: the initialisers of `struct Config` give, for any values of the primary
fields, `clockStart = 0`, `clockEnd = totalHours * intervalHours`, `minutesStart =
clockEnd`, `minutesEnd = minutesStart + intervalMinutes`, `secondsStart =
minutesEnd`, `secondsEnd = secondsStart + intervalSeconds`; each zone starts where
the one before ends, and with a non-negative `intervalMinutes` no index lies in two
zones.  In the shipped configuration `secondsEnd <= total`, the zones are `[0,156)`,
`[156,161)`, `[161,165)`, no index occurs twice in them, and together they are
exactly the indices `0 .. total - 1`. -/
theorem C8_zone_layout :
    (∀ (total totalHours hoursStart intervalHours intervalMinutes intervalSeconds
        secondsRepresentation : Int),
      ({ total := total, totalHours := totalHours, hoursStart := hoursStart,
         intervalHours := intervalHours, intervalMinutes := intervalMinutes,
         intervalSeconds := intervalSeconds,
         secondsRepresentation := secondsRepresentation } : Config).ZoneLayout) ∧
    (∀ cfg : Config, cfg.ZoneLayout → 0 ≤ cfg.intervalMinutes → ∀ i : Int,
      ¬ (i ∈ zone cfg.clockStart cfg.clockEnd ∧ i ∈ zone cfg.minutesStart cfg.minutesEnd) ∧
      ¬ (i ∈ zone cfg.minutesStart cfg.minutesEnd ∧
          i ∈ zone cfg.secondsStart cfg.secondsEnd) ∧
      ¬ (i ∈ zone cfg.clockStart cfg.clockEnd ∧
          i ∈ zone cfg.secondsStart cfg.secondsEnd)) ∧
    shippedConfig.ZoneLayout ∧
    shippedConfig.total = 165 ∧
    shippedConfig.secondsEnd ≤ shippedConfig.total ∧
    (shippedConfig.clockStart, shippedConfig.clockEnd) = (0, 156) ∧
    (shippedConfig.minutesStart, shippedConfig.minutesEnd) = (156, 161) ∧
    (shippedConfig.secondsStart, shippedConfig.secondsEnd) = (161, 165) ∧
    (zone shippedConfig.clockStart shippedConfig.clockEnd ++
      zone shippedConfig.minutesStart shippedConfig.minutesEnd ++
      zone shippedConfig.secondsStart shippedConfig.secondsEnd).Nodup ∧
    zone shippedConfig.clockStart shippedConfig.clockEnd ++
      zone shippedConfig.minutesStart shippedConfig.minutesEnd ++
      zone shippedConfig.secondsStart shippedConfig.secondsEnd
      = zone 0 shippedConfig.total := by
  refine ⟨?_, zones_disjoint, by decide, by decide, by decide, by decide, by decide,
    by decide, ?_, by decide⟩
  · intro a b c d e f g
    exact ⟨rfl, rfl, rfl, rfl, rfl, rfl⟩
  · have h : zone shippedConfig.clockStart shippedConfig.clockEnd ++
        zone shippedConfig.minutesStart shippedConfig.minutesEnd ++
        zone shippedConfig.secondsStart shippedConfig.secondsEnd
        = zone 0 shippedConfig.total := by decide
    rw [h]
    exact zone_nodup _ _

/-- C8 at the shipped configuration: index 156 is in the minute zone only. -/
theorem C8_zone_layout_witness :
    shippedConfig.ZoneLayout ∧ 0 ≤ shippedConfig.intervalMinutes ∧
    ¬ (156 ∈ zone shippedConfig.clockStart shippedConfig.clockEnd ∧
        156 ∈ zone shippedConfig.minutesStart shippedConfig.minutesEnd) ∧
    ¬ (156 ∈ zone shippedConfig.minutesStart shippedConfig.minutesEnd ∧
        156 ∈ zone shippedConfig.secondsStart shippedConfig.secondsEnd) ∧
    ¬ (156 ∈ zone shippedConfig.clockStart shippedConfig.clockEnd ∧
        156 ∈ zone shippedConfig.secondsStart shippedConfig.secondsEnd) :=
  ⟨by decide, by decide, C8_zone_layout.2.1 shippedConfig (by decide) (by decide) 156⟩

/-- C9: for every configuration, hour and minute, the hour-track boundary computed
by `renderTime` for `hour + 1` is the one computed for `hour` plus
`intervalHours` (both undefined when `intervalMinutes` is zero); for non-zero
`intervalMinutes` both are defined, and the later one is strictly greater when
`intervalHours` is positive.  The boundary does not depend on the second. -/
theorem C9_next_hour_adds_intervalHours (cfg : Config) (hour minute : Int) :
    currentTimeIndex cfg (hour + 1) minute =
      Except.map (fun x => x + cfg.intervalHours) (currentTimeIndex cfg hour minute) ∧
    (cfg.intervalMinutes ≠ 0 →
      ∃ timeIndex, currentTimeIndex cfg hour minute = .ok timeIndex ∧
        currentTimeIndex cfg (hour + 1) minute = .ok (timeIndex + cfg.intervalHours) ∧
        (0 < cfg.intervalHours → timeIndex < timeIndex + cfg.intervalHours)) := by
  unfold currentTimeIndex cdiv
  by_cases hM : cfg.intervalMinutes = 0
  · simp [hM, Except.map]
  · simp only [hM, if_false, Except.map]
    refine ⟨?_, fun _ => ⟨_, rfl, ?_, fun h => by omega⟩⟩
    · congr 1
      ring
    · congr 1
      ring

/-- C9 at the shipped configuration: 07:05 has boundary 13, 08:05 has 25. -/
theorem C9_next_hour_adds_intervalHours_witness :
    shippedConfig.intervalMinutes ≠ 0 ∧ 0 < shippedConfig.intervalHours ∧
    currentTimeIndex shippedConfig 7 5 = .ok 13 ∧
    currentTimeIndex shippedConfig (7 + 1) 5 = .ok (13 + shippedConfig.intervalHours) ∧
    (13 : Int) < 13 + shippedConfig.intervalHours := by
  obtain ⟨ti, h1, h2, h3⟩ :=
    (C9_next_hour_adds_intervalHours shippedConfig 7 5).2 (by decide)
  have hti : ti = 13 := by
    have h : currentTimeIndex shippedConfig 7 5 = .ok 13 := by decide
    rw [h] at h1
    exact (Except.ok.inj h1).symm
  subst hti
  exact ⟨by decide, by decide, h1, h2, h3 (by decide)⟩

/-! ## Claim about the frame effect of `renderTime` -/

/-- In a list of `setPixelColor` calls, one per index of `is`, pixel `j` is written as
often as `j` occurs in `is`. -/
theorem countP_writesPixel_map (g : Int → Nat) (j : Int) :
    ∀ is : List Int,
      ((is.map (fun i => Effect.setPixelColor i (g i))).countP (Effect.writesPixel j))
        = is.count j := by
  intro is
  induction is with
  | nil => rfl
  | cons i is ih =>
    rw [List.map_cons, List.countP_cons, ih, List.count_cons]
    by_cases h : i = j
    · simp [Effect.writesPixel, h]
    · simp [Effect.writesPixel, h]

/-- An index occurs in a zone once when it lies in it, and not at all otherwise. -/
theorem count_zone (lo hi j : Int) :
    (zone lo hi).count j = if lo ≤ j ∧ j < hi then 1 else 0 := by
  by_cases h : lo ≤ j ∧ j < hi
  · rw [if_pos h]
    exact List.count_eq_one_of_mem (zone_nodup lo hi) ((mem_zone lo hi j).mpr h)
  · rw [if_neg h]
    exact List.count_eq_zero_of_not_mem (fun hm => h ((mem_zone lo hi j).mp hm))

/-- C10 as stated fails twice.  `zeroMinutesConfig` and `fourteenHoursConfig` are laid
out as in `struct Config` with non-negative zone widths; on the first `renderTime`
divides by `intervalMinutes = 0` (line 270), on the second it reads `colors[165]`
past the end of the array (line 290): in both cases no defined sequence of
`setPixelColor` calls results. -/
theorem C10_counterexample :
    zeroMinutesConfig.ZoneLayout ∧ 0 ≤ zeroMinutesConfig.clockEnd ∧
    0 ≤ zeroMinutesConfig.intervalMinutes ∧ 0 ≤ zeroMinutesConfig.intervalSeconds ∧
    renderTime zeroMinutesConfig ⟨2024, 1, 1, 7, 5, 30⟩ = .error .divByZero ∧
    fourteenHoursConfig.ZoneLayout ∧ 0 ≤ fourteenHoursConfig.clockEnd ∧
    0 ≤ fourteenHoursConfig.intervalMinutes ∧ 0 ≤ fourteenHoursConfig.intervalSeconds ∧
    renderTime fourteenHoursConfig ⟨2024, 1, 1, 7, 5, 30⟩ = .error .outOfBounds := by
  decide

/-- C10 (amended): in a configuration laid out as in `struct Config` with
non-negative zone widths, positive `intervalMinutes`, non-zero
`secondsRepresentation` and `secondsEnd` at most the length of `colors[]`, for every
sampled time `renderTime` completes, its trace has exactly one `setPixelColor` for
each index of `[clockStart, clockEnd)`, `[minutesStart, minutesEnd)` and
`[secondsStart, secondsEnd)`, none for any other index, and neither `strip.show`
nor `strip.clear`. -/
theorem C10_one_setPixelColor_per_zone_index (cfg : Config) (t : DateTime)
    (hL : cfg.ZoneLayout) (hW : 0 ≤ cfg.clockEnd) (hM : 0 < cfg.intervalMinutes)
    (hS : 0 ≤ cfg.intervalSeconds) (hR : cfg.secondsRepresentation ≠ 0)
    (hB : cfg.secondsEnd ≤ (cfg.colors.length : Int)) :
    ∃ es, renderTime cfg t = .ok es ∧
      (∀ i : Int, (cfg.clockStart ≤ i ∧ i < cfg.clockEnd) ∨
          (cfg.minutesStart ≤ i ∧ i < cfg.minutesEnd) ∨
          (cfg.secondsStart ≤ i ∧ i < cfg.secondsEnd) →
        es.countP (Effect.writesPixel i) = 1) ∧
      (∀ i : Int, ¬ ((cfg.clockStart ≤ i ∧ i < cfg.clockEnd) ∨
          (cfg.minutesStart ≤ i ∧ i < cfg.minutesEnd) ∨
          (cfg.secondsStart ≤ i ∧ i < cfg.secondsEnd)) →
        es.countP (Effect.writesPixel i) = 0) ∧
      Effect.stripShow ∉ es ∧ Effect.stripClear ∉ es := by
  obtain ⟨hcs, hce, hms, hme, hss, hse⟩ := hL
  have hM0 : cfg.intervalMinutes ≠ 0 := by omega
  have hbd : ∀ i, i ∈ zone cfg.clockStart cfg.clockEnd ∨
      i ∈ zone cfg.minutesStart cfg.minutesEnd ∨
      i ∈ zone cfg.secondsStart cfg.secondsEnd → 0 ≤ i ∧ i < (cfg.colors.length : Int) := by
    intro i hi
    simp only [mem_zone] at hi
    omega
  have hrun := renderTime_ok cfg t hM0 hR hbd
  have hcount : ∀ j : Int, List.countP (Effect.writesPixel j) (logTime t) = 0 := by
    intro j
    rfl
  refine ⟨_, hrun, ?_, ?_, ?_, ?_⟩
  · intro i hi
    simp only [List.countP_append, countP_writesPixel_map, count_zone, hcount]
    split_ifs <;> omega
  · intro i hi
    simp only [List.countP_append, countP_writesPixel_map, count_zone, hcount]
    split_ifs <;> omega
  · obtain ⟨px, hpx, hset⟩ := renderTime_effects cfg t _ hrun
    rw [hpx]
    intro hmem
    rcases List.mem_append.mp hmem with h | h
    · simp [logTime] at h
    · have := hset _ h
      simp [Effect.isSetPixel] at this
  · obtain ⟨px, hpx, hset⟩ := renderTime_effects cfg t _ hrun
    rw [hpx]
    intro hmem
    rcases List.mem_append.mp hmem with h | h
    · simp [logTime] at h
    · have := hset _ h
      simp [Effect.isSetPixel] at this

/-- C10 (amended) at the shipped configuration after `initColors`, 07:05:30: pixel 160
is written once, pixel 165 not at all. -/
theorem C10_one_setPixelColor_per_zone_index_witness :
    ∃ cfg2 es, initColors shippedConfig = .ok cfg2 ∧
      cfg2.ZoneLayout ∧ 0 ≤ cfg2.clockEnd ∧ 0 < cfg2.intervalMinutes ∧
      0 ≤ cfg2.intervalSeconds ∧ cfg2.secondsRepresentation ≠ 0 ∧
      cfg2.secondsEnd ≤ (cfg2.colors.length : Int) ∧
      renderTime cfg2 ⟨2024, 1, 1, 7, 5, 30⟩ = .ok es ∧
      es.countP (Effect.writesPixel 160) = 1 ∧
      es.countP (Effect.writesPixel 165) = 0 ∧
      Effect.stripShow ∉ es ∧ Effect.stripClear ∉ es := by
  obtain ⟨cfg2, hrun⟩ := initColors_shipped_ok
  obtain ⟨hfr, hlen, -⟩ := initColors_ok_frame _ _ hrun
  obtain ⟨hm, hr, hL⟩ := initColors_shipped_fields cfg2 hrun
  have hce : cfg2.clockEnd = 156 := by rw [hfr]; rfl
  have hms : cfg2.minutesStart = 156 := by rw [hfr]; rfl
  have hme : cfg2.minutesEnd = 161 := by rw [hfr]; rfl
  have hcs : cfg2.clockStart = 0 := by rw [hfr]; rfl
  have hss : cfg2.secondsStart = 161 := by rw [hfr]; rfl
  have hse : cfg2.secondsEnd = 165 := by rw [hfr]; rfl
  have his : cfg2.intervalSeconds = 4 := by rw [hfr]; rfl
  have hl : cfg2.colors.length = 165 := by rw [hlen]; rfl
  have hW : 0 ≤ cfg2.clockEnd := by omega
  have hM : 0 < cfg2.intervalMinutes := by omega
  have hS : 0 ≤ cfg2.intervalSeconds := by omega
  have hR : cfg2.secondsRepresentation ≠ 0 := by omega
  have hB : cfg2.secondsEnd ≤ (cfg2.colors.length : Int) := by omega
  obtain ⟨es, h1, h2, h3, h4, h5⟩ :=
    C10_one_setPixelColor_per_zone_index cfg2 ⟨2024, 1, 1, 7, 5, 30⟩ hL hW hM hS hR hB
  exact ⟨cfg2, es, hrun, hL, hW, hM, hS, hR, hB, h1, h2 160 (by omega),
    h3 165 (by omega), h4, h5⟩

/-! ## Splitting a rendering loop at its boundary -/

/-- A loop range cut at an index in between. -/
theorem zone_append (lo mid hi : Int) (h1 : lo ≤ mid) (h2 : mid ≤ hi) :
    zone lo hi = zone lo mid ++ zone mid hi := by
  unfold zone
  have hn : (hi - lo).toNat = (mid - lo).toNat + (hi - mid).toNat := by omega
  rw [hn, List.range_add, List.map_append, List.map_map]
  congr 1
  apply List.map_congr_left
  intro k _
  simp only [Function.comp]
  omega

/-- A rendering loop whose boundary lies inside its zone: elapsed colour below the
boundary, table colour from the boundary on. -/
theorem map_zone_boundary (lo b hi : Int) (elapsed : Nat) (c : Int → Nat)
    (h1 : lo ≤ b) (h2 : b ≤ hi) :
    (zone lo hi).map (fun i => Effect.setPixelColor i (if i < b then elapsed else c i)) =
      (zone lo b).map (fun i => Effect.setPixelColor i elapsed) ++
      (zone b hi).map (fun i => Effect.setPixelColor i (c i)) := by
  rw [zone_append lo b hi h1 h2, List.map_append]
  congr 1
  · apply List.map_congr_left
    intro i hi2
    rw [mem_zone] at hi2
    rw [if_pos hi2.2]
  · apply List.map_congr_left
    intro i hi2
    rw [mem_zone] at hi2
    rw [if_neg (by omega)]

/-- A rendering loop whose boundary is at or before the start of its zone writes the
table colour everywhere. -/
theorem map_zone_none_elapsed (lo b hi : Int) (elapsed : Nat) (c : Int → Nat)
    (h1 : b ≤ lo) :
    (zone lo hi).map (fun i => Effect.setPixelColor i (if i < b then elapsed else c i)) =
      (zone lo hi).map (fun i => Effect.setPixelColor i (c i)) := by
  apply List.map_congr_left
  intro i hi2
  rw [mem_zone] at hi2
  rw [if_neg (by omega)]

/-- After a completed `initColors`, a loop that writes the table colour over the
minute or the second zone writes the future colour. -/
theorem map_zone_counter_future (cfg cfg2 : Config) (h : initColors cfg = .ok cfg2)
    (lo hi : Int)
    (hz : ∀ i, i ∈ zone lo hi → i ∈ zone cfg2.minutesStart cfg2.minutesEnd ∨
      i ∈ zone cfg2.secondsStart cfg2.secondsEnd) :
    (zone lo hi).map (fun i => Effect.setPixelColor i (cfg2.colors.getD i.toNat 0)) =
      (zone lo hi).map (fun i => Effect.setPixelColor i cfg2.colorFuture) := by
  apply List.map_congr_left
  intro i hi2
  rw [initColors_ok_counter cfg cfg2 h i (hz i hi2)]

/-! ## The two worked examples of the specification -/

/-- C11: on the shipped configuration after `initColors`, for the sample 07:05:30
`renderTime` computes `timeIndex = 13`, `minuteIndex = minutesStart + 0` and
`secondIndex = secondsStart + 2`; its trace is the time log, then `colorPast` on
pixels `[0,13)`, the table colour `colors[i]` on pixels `[13, clockEnd)`, the future
colour on every pixel of the minute zone, `colorCounterSeconds` on the first two
pixels of the second zone and the future colour on the rest of it. -/
theorem C11_example_07_05_30 :
    ∃ cfg2, initColors shippedConfig = .ok cfg2 ∧
      currentTimeIndex cfg2 7 5 = .ok 13 ∧
      currentMinuteIndex cfg2 5 = .ok (cfg2.minutesStart + 0) ∧
      currentSecondIndex cfg2 30 = .ok (cfg2.secondsStart + 2) ∧
      (cfg2.clockStart, cfg2.clockEnd) = (0, 156) ∧
      (cfg2.minutesStart, cfg2.minutesEnd) = (156, 161) ∧
      (cfg2.secondsStart, cfg2.secondsEnd) = (161, 165) ∧
      renderTime cfg2 ⟨2024, 1, 1, 7, 5, 30⟩ = .ok (logTime ⟨2024, 1, 1, 7, 5, 30⟩ ++
        (zone 0 13).map (fun i => Effect.setPixelColor i cfg2.colorPast) ++
        (zone 13 cfg2.clockEnd).map
          (fun i => Effect.setPixelColor i (cfg2.colors.getD i.toNat 0)) ++
        (zone cfg2.minutesStart cfg2.minutesEnd).map
          (fun i => Effect.setPixelColor i cfg2.colorFuture) ++
        [Effect.setPixelColor cfg2.secondsStart cfg2.colorCounterSeconds,
         Effect.setPixelColor (cfg2.secondsStart + 1) cfg2.colorCounterSeconds] ++
        (zone (cfg2.secondsStart + 2) cfg2.secondsEnd).map
          (fun i => Effect.setPixelColor i cfg2.colorFuture)) ∧
      (∀ i, 13 ≤ i → i < cfg2.clockEnd →
        readColor cfg2.colors i = .ok (cfg2.colors.getD i.toNat 0)) := by
  obtain ⟨cfg2, hrun⟩ := initColors_shipped_ok
  obtain ⟨hfr, hlen, -⟩ := initColors_ok_frame _ _ hrun
  obtain ⟨hm, hr, hL⟩ := initColors_shipped_fields cfg2 hrun
  have hbd := (initColors_ok_shape _ _ hrun).2
  have hcs : cfg2.clockStart = 0 := by rw [hfr]; rfl
  have hce : cfg2.clockEnd = 156 := by rw [hfr]; rfl
  have hms : cfg2.minutesStart = 156 := by rw [hfr]; rfl
  have hme : cfg2.minutesEnd = 161 := by rw [hfr]; rfl
  have hss : cfg2.secondsStart = 161 := by rw [hfr]; rfl
  have hse : cfg2.secondsEnd = 165 := by rw [hfr]; rfl
  have hhs : cfg2.hoursStart = 6 := by rw [hfr]; rfl
  have hih : cfg2.intervalHours = 12 := by rw [hfr]; rfl
  have hM : cfg2.intervalMinutes ≠ 0 := by omega
  have hR : cfg2.secondsRepresentation ≠ 0 := by omega
  have hti : currentTimeIndex cfg2 7 5 = .ok 13 := by
    unfold currentTimeIndex cdiv
    simp only [hM, if_false, hcs, hhs, hih, hm]
    rfl
  have hmi : currentMinuteIndex cfg2 5 = .ok (cfg2.minutesStart + 0) := by
    unfold currentMinuteIndex cmod
    simp only [hM, if_false, hm]
    rfl
  have hsi : currentSecondIndex cfg2 30 = .ok (cfg2.secondsStart + 2) := by
    unfold currentSecondIndex cdiv
    simp only [hR, if_false, hr]
    rfl
  refine ⟨cfg2, hrun, hti, hmi, hsi, by rw [hcs, hce], by rw [hms, hme], by rw [hss, hse],
    ?_, ?_⟩
  · rw [renderTime_after_init _ cfg2 _ hrun hM hR]
    have e1 : cfg2.clockStart + (getHours ⟨2024, 1, 1, 7, 5, 30⟩ - cfg2.hoursStart) *
        cfg2.intervalHours + Int.tdiv (getMinutes ⟨2024, 1, 1, 7, 5, 30⟩)
          cfg2.intervalMinutes = 13 := by
      rw [hcs, hhs, hih, hm]; rfl
    have e2 : cfg2.minutesStart + Int.tmod (getMinutes ⟨2024, 1, 1, 7, 5, 30⟩)
        cfg2.intervalMinutes = cfg2.minutesStart := by
      have h0 : Int.tmod (getMinutes ⟨2024, 1, 1, 7, 5, 30⟩) 5 = 0 := by decide
      rw [hm, h0]; omega
    have e3 : cfg2.secondsStart + Int.tdiv (getSeconds ⟨2024, 1, 1, 7, 5, 30⟩)
        cfg2.secondsRepresentation = cfg2.secondsStart + 2 := by
      have h0 : Int.tdiv (getSeconds ⟨2024, 1, 1, 7, 5, 30⟩) 15 = 2 := by decide
      rw [hr, h0]
    rw [e1, e2, e3]
    rw [map_zone_boundary cfg2.clockStart 13 cfg2.clockEnd _ _ (by omega) (by omega),
      map_zone_none_elapsed cfg2.minutesStart cfg2.minutesStart cfg2.minutesEnd _ _
        (le_refl _),
      map_zone_boundary cfg2.secondsStart (cfg2.secondsStart + 2) cfg2.secondsEnd _ _
        (by omega) (by omega),
      map_zone_counter_future _ cfg2 hrun cfg2.minutesStart cfg2.minutesEnd
        (fun i hi => Or.inl hi),
      map_zone_counter_future _ cfg2 hrun (cfg2.secondsStart + 2) cfg2.secondsEnd
        (fun i hi => Or.inr (by rw [mem_zone] at hi ⊢; omega))]
    have ez : zone cfg2.secondsStart (cfg2.secondsStart + 2) =
        [cfg2.secondsStart, cfg2.secondsStart + 1] := by
      rw [hss]; rfl
    rw [ez, hcs]
    simp only [List.map_cons, List.map_nil, List.append_assoc]
  · intro i h1 h2
    have hib := hbd i (Or.inl ((mem_zone _ _ _).mpr ⟨by omega, h2⟩))
    exact readColor_ok _ _ hib.1 hib.2

/-- C12: on a configuration on which `initColors` has completed, with positive
`intervalMinutes` and `secondsRepresentation`, the sample `{hour = hoursStart,
minute = 0, second = 0}` gives `timeIndex = clockStart`, `minuteIndex =
minutesStart` and `secondIndex = secondsStart`; `renderTime` completes and writes no
elapsed colour: its trace is the time log, then `colors[i]` on every pixel of the
hour zone and the future colour on every pixel of the minute and second zones. -/
theorem C12_start_of_window_has_nothing_elapsed (cfg cfg2 : Config) (t : DateTime)
    (hrun : initColors cfg = .ok cfg2)
    (hM : 0 < cfg2.intervalMinutes) (hR : 0 < cfg2.secondsRepresentation)
    (hh : getHours t = cfg2.hoursStart) (hm : getMinutes t = 0) (hs : getSeconds t = 0) :
    currentTimeIndex cfg2 (getHours t) (getMinutes t) = .ok cfg2.clockStart ∧
    currentMinuteIndex cfg2 (getMinutes t) = .ok cfg2.minutesStart ∧
    currentSecondIndex cfg2 (getSeconds t) = .ok cfg2.secondsStart ∧
    renderTime cfg2 t = .ok (logTime t ++
      (zone cfg2.clockStart cfg2.clockEnd).map
        (fun i => Effect.setPixelColor i (cfg2.colors.getD i.toNat 0)) ++
      (zone cfg2.minutesStart cfg2.minutesEnd).map
        (fun i => Effect.setPixelColor i cfg2.colorFuture) ++
      (zone cfg2.secondsStart cfg2.secondsEnd).map
        (fun i => Effect.setPixelColor i cfg2.colorFuture)) ∧
    (∀ i, cfg2.clockStart ≤ i → i < cfg2.clockEnd →
      readColor cfg2.colors i = .ok (cfg2.colors.getD i.toNat 0)) := by
  have hM0 : cfg2.intervalMinutes ≠ 0 := by omega
  have hR0 : cfg2.secondsRepresentation ≠ 0 := by omega
  have hbd := (initColors_ok_shape cfg cfg2 hrun).2
  have e1 : cfg2.clockStart + (getHours t - cfg2.hoursStart) * cfg2.intervalHours
      + Int.tdiv (getMinutes t) cfg2.intervalMinutes = cfg2.clockStart := by
    rw [hh, hm]; simp
  have e2 : cfg2.minutesStart + Int.tmod (getMinutes t) cfg2.intervalMinutes
      = cfg2.minutesStart := by
    rw [hm]; simp
  have e3 : cfg2.secondsStart + Int.tdiv (getSeconds t) cfg2.secondsRepresentation
      = cfg2.secondsStart := by
    rw [hs]; simp
  refine ⟨?_, ?_, ?_, ?_, ?_⟩
  · unfold currentTimeIndex cdiv
    simp only [hM0, if_false, e1]
  · unfold currentMinuteIndex cmod
    simp only [hM0, if_false, e2]
  · unfold currentSecondIndex cdiv
    simp only [hR0, if_false, e3]
  · rw [renderTime_after_init cfg cfg2 t hrun hM0 hR0, e1, e2, e3,
      map_zone_none_elapsed _ _ _ _ _ (le_refl _),
      map_zone_none_elapsed _ _ _ _ _ (le_refl _),
      map_zone_none_elapsed _ _ _ _ _ (le_refl _),
      map_zone_counter_future cfg cfg2 hrun cfg2.minutesStart cfg2.minutesEnd
        (fun i hi => Or.inl hi),
      map_zone_counter_future cfg cfg2 hrun cfg2.secondsStart cfg2.secondsEnd
        (fun i hi => Or.inr hi)]
  · intro i h1 h2
    have hib := hbd i (Or.inl ((mem_zone _ _ _).mpr ⟨h1, h2⟩))
    exact readColor_ok _ _ hib.1 hib.2

/-- C12 at the shipped configuration, sample 06:00:00: `timeIndex = 0`. -/
theorem C12_start_of_window_has_nothing_elapsed_witness :
    ∃ cfg2, initColors shippedConfig = .ok cfg2 ∧
      0 < cfg2.intervalMinutes ∧ 0 < cfg2.secondsRepresentation ∧
      getHours ⟨2024, 1, 1, 6, 0, 0⟩ = cfg2.hoursStart ∧
      currentTimeIndex cfg2 (getHours ⟨2024, 1, 1, 6, 0, 0⟩)
        (getMinutes ⟨2024, 1, 1, 6, 0, 0⟩) = .ok 0 ∧
      renderTime cfg2 ⟨2024, 1, 1, 6, 0, 0⟩ = .ok (logTime ⟨2024, 1, 1, 6, 0, 0⟩ ++
        (zone cfg2.clockStart cfg2.clockEnd).map
          (fun i => Effect.setPixelColor i (cfg2.colors.getD i.toNat 0)) ++
        (zone cfg2.minutesStart cfg2.minutesEnd).map
          (fun i => Effect.setPixelColor i cfg2.colorFuture) ++
        (zone cfg2.secondsStart cfg2.secondsEnd).map
          (fun i => Effect.setPixelColor i cfg2.colorFuture)) := by
  obtain ⟨cfg2, hrun⟩ := initColors_shipped_ok
  obtain ⟨hfr, -, -⟩ := initColors_ok_frame _ _ hrun
  obtain ⟨hm, hr, -⟩ := initColors_shipped_fields cfg2 hrun
  have hhs : getHours ⟨2024, 1, 1, 6, 0, 0⟩ = cfg2.hoursStart := by rw [hfr]; rfl
  have hcs : cfg2.clockStart = 0 := by rw [hfr]; rfl
  have h := C12_start_of_window_has_nothing_elapsed shippedConfig cfg2
    ⟨2024, 1, 1, 6, 0, 0⟩ hrun (by omega) (by omega) hhs rfl rfl
  exact ⟨cfg2, hrun, by omega, by omega, hhs, by rw [h.1, hcs], h.2.2.2.1⟩

/-! ## `initColors`: faults, completion and a second run -/

/-- A fault of a loop is a fault of its body at one of the indices, in a state that
satisfies every invariant of the body. -/
theorem forState_error_inv {σ : Type} (body : Int → σ → Except Fault σ) (P : σ → Prop)
    (hP : ∀ i s s1, P s → body i s = .ok s1 → P s1) :
    ∀ (is : List Int) (s : σ) (e : Fault), P s → forState body is s = .error e →
      ∃ i ∈ is, ∃ t, P t ∧ body i t = .error e := by
  intro is
  induction is with
  | nil => intro s e _ h; simp [forState] at h
  | cons i is ih =>
    intro s e hs h
    simp only [forState] at h
    cases hb : body i s with
    | error x =>
      simp only [hb] at h
      have hx : x = e := Except.error.inj h
      subst hx
      exact ⟨i, List.mem_cons_self _ _, s, hs, hb⟩
    | ok s1 =>
      simp only [hb] at h
      obtain ⟨k, hk, t, ht, hbt⟩ := ih s1 e (hP i s s1 hs hb) h
      exact ⟨k, List.mem_cons_of_mem _ hk, t, ht, hbt⟩

/-- The only fault of `%` is a zero divisor. -/
theorem cmod_error (a b : Int) (e : Fault) (h : cmod a b = .error e) :
    e = .divByZero ∧ b = 0 := by
  unfold cmod at h
  split_ifs at h with hb
  exact ⟨(Except.error.inj h).symm, hb⟩

/-- The only fault of the `if` chain is a modulus by zero. -/
theorem tickColor_error (cfg : Config) (i : Int) (e : Fault)
    (h : tickColor cfg i = .error e) : e = .divByZero := by
  unfold tickColor at h
  cases h1 : cmod i cfg.intervalHours with
  | error x =>
    simp only [h1] at h
    rw [← Except.error.inj h]
    exact (cmod_error _ _ _ h1).1
  | ok r1 =>
    simp only [h1] at h
    by_cases hr1 : r1 = 0
    · simp [hr1] at h
    · simp only [hr1, if_false] at h
      cases h2 : cmod i cfg.intervalHalves with
      | error x =>
        simp only [h2] at h
        rw [← Except.error.inj h]
        exact (cmod_error _ _ _ h2).1
      | ok r2 =>
        simp only [h2] at h
        by_cases hr2 : r2 = 0
        · simp [hr2] at h
        · simp only [hr2, if_false] at h
          cases h3 : cmod i cfg.intervalQuarters with
          | error x =>
            simp only [h3] at h
            rw [← Except.error.inj h]
            exact (cmod_error _ _ _ h3).1
          | ok r3 =>
            simp only [h3] at h
            by_cases hr3 : r3 = 0
            · simp [hr3] at h
            · simp [hr3] at h

/-- The only fault of a write is an index outside the array. -/
theorem writeColor_error (s : List Nat) (i : Int) (v : Nat) (e : Fault)
    (h : writeColor s i v = .error e) :
    e = .outOfBounds ∧ ¬ (0 ≤ i ∧ i < (s.length : Int)) := by
  unfold writeColor at h
  split_ifs at h with hb
  exact ⟨(Except.error.inj h).symm, hb⟩

/-- A write keeps the length of the array. -/
theorem writeColor_length (s : List Nat) (i : Int) (v : Nat) (s1 : List Nat)
    (h : writeColor s i v = .ok s1) : s1.length = s.length := by
  rw [writeColor_ok_iff] at h
  rw [h.2, List.length_set]

/-- A completed first loop of `initColors` evaluated the `if` chain without a fault
at every index. -/
theorem forState_initTick_ok (cfg : Config) :
    ∀ (is : List Int) (s s1 : List Nat), forState (initTick cfg) is s = .ok s1 →
      ∀ i ∈ is, ∃ v, tickColor cfg i = .ok v := by
  intro is
  induction is with
  | nil => intro s s1 _ i hi; simp at hi
  | cons k is ih =>
    intro s s1 h i hi
    simp only [forState] at h
    cases hb : initTick cfg k s with
    | error x => simp [hb] at h
    | ok s2 =>
      simp only [hb] at h
      rcases List.mem_cons.mp hi with rfl | hi
      · unfold initTick at hb
        cases ht : tickColor cfg i with
        | error x => simp [ht] at hb
        | ok v => exact ⟨v, rfl⟩
      · exact ih s2 s1 h i hi

/-- Two arrays of the same length with the same entries are equal. -/
theorem list_eq_of_getD (l1 l2 : List Nat) (hlen : l1.length = l2.length)
    (h : ∀ j : Nat, l1.getD j 0 = l2.getD j 0) : l1 = l2 := by
  apply List.ext_getElem hlen
  intro n h1 h2
  have := h n
  simp only [List.getD_eq_getElem?_getD, List.getElem?_eq_getElem h1,
    List.getElem?_eq_getElem h2, Option.getD_some] at this
  exact this

/-- What a completed loop of writes of `w i` at `i` leaves in the array. -/
theorem forState_write_spec (w : Int → Nat) (is : List Int) (s s2 : List Nat)
    (h : forState (fun i t => writeColor t i (w i)) is s = .ok s2) :
    s2.length = s.length ∧
    ∀ j : Nat, s2.getD j 0 = if (j : Int) ∈ is then w j else s.getD j 0 := by
  obtain ⟨hl, -, hn⟩ := forState_write_inv _ (fun k t t1 hk => ⟨w k, hk⟩) is s s2 h
  refine ⟨hl, ?_⟩
  intro j
  by_cases hj : (j : Int) ∈ is
  · rw [if_pos hj]
    exact forState_write_val w is s s2 h j hj
  · rw [if_neg hj]
    exact hn j hj

/-- `initColors` reads `colors` only to write into it: the loops it runs on a
configuration with another `colors` array are the same loops. -/
theorem initColors_with_colors (cfg : Config) (cs : List Nat) :
    initColors { cfg with colors := cs } =
      match forState (initTick cfg) (zone cfg.clockStart cfg.clockEnd) cs with
      | .error e => .error e
      | .ok c1 =>
        match forState (initFuture cfg) (zone cfg.minutesStart cfg.minutesEnd) c1 with
        | .error e => .error e
        | .ok c2 =>
          match forState (initFuture cfg) (zone cfg.secondsStart cfg.secondsEnd) c2 with
          | .error e => .error e
          | .ok c3 => .ok { cfg with colors := c3 } := rfl

/-- Running `initColors` on the configuration a completed run returned completes and
returns that configuration again. -/
theorem initColors_rerun (cfg cfg2 : Config) (h : initColors cfg = .ok cfg2) :
    initColors cfg2 = .ok cfg2 := by
  obtain ⟨c1, c2, h1, h2, h3, hfr⟩ := initColors_ok_split cfg cfg2 h
  obtain ⟨-, hlen, hbd⟩ := initColors_ok_frame cfg cfg2 h
  have htick := forState_initTick_ok cfg _ _ _ h1
  -- the value the first loop stores at each index
  let w : Int → Nat := fun i =>
    match tickColor cfg i with
    | .ok v => v
    | .error _ => 0
  have hw : ∀ i ∈ zone cfg.clockStart cfg.clockEnd, ∀ t,
      initTick cfg i t = writeColor t i (w i) := by
    intro i hi t
    obtain ⟨v, hv⟩ := htick i hi
    simp only [initTick, w, hv]
  have hc : ∀ s, forState (initTick cfg) (zone cfg.clockStart cfg.clockEnd) s =
      forState (fun i t => writeColor t i (w i)) (zone cfg.clockStart cfg.clockEnd) s :=
    fun s => forState_congr _ _ _ s hw
  rw [hc] at h1
  have hF : initFuture cfg = fun i t => writeColor t i ((fun _ => cfg.colorFuture) i) := rfl
  rw [hF] at h2 h3
  obtain ⟨l1, v1⟩ := forState_write_spec w _ _ _ h1
  obtain ⟨l2, v2⟩ := forState_write_spec (fun _ => cfg.colorFuture) _ _ _ h2
  obtain ⟨l3, v3⟩ := forState_write_spec (fun _ => cfg.colorFuture) _ _ _ h3
  -- the second run completes: same indices, array of the same length
  obtain ⟨d1, g1⟩ := forState_write_total w (zone cfg.clockStart cfg.clockEnd) cfg2.colors
    (fun i hi => by rw [hlen]; exact hbd i (Or.inl hi))
  obtain ⟨m1, u1⟩ := forState_write_spec w _ _ _ g1
  obtain ⟨d2, g2⟩ := forState_write_total (fun _ => cfg.colorFuture)
    (zone cfg.minutesStart cfg.minutesEnd) d1
    (fun i hi => by rw [m1, hlen]; exact hbd i (Or.inr (Or.inl hi)))
  obtain ⟨m2, u2⟩ := forState_write_spec (fun _ => cfg.colorFuture) _ _ _ g2
  obtain ⟨d3, g3⟩ := forState_write_total (fun _ => cfg.colorFuture)
    (zone cfg.secondsStart cfg.secondsEnd) d2
    (fun i hi => by rw [m2, m1, hlen]; exact hbd i (Or.inr (Or.inr hi)))
  obtain ⟨m3, u3⟩ := forState_write_spec (fun _ => cfg.colorFuture) _ _ _ g3
  have hd : d3 = cfg2.colors := by
    apply list_eq_of_getD
    · omega
    · intro j
      rw [u3 j, u2 j, u1 j, v3 j, v2 j, v1 j]
      split_ifs <;> rfl
  rw [hfr, initColors_with_colors, hc, g1]
  simp only [hF]
  rw [g2]
  simp only []
  rw [g3, hd]

/-- Where a fault of `initColors` comes from: a modulus by zero in the `if` chain at
an index of the hour zone, or a write at a zone index outside `colors[]`. -/
theorem initColors_error (cfg : Config) (e : Fault) (h : initColors cfg = .error e) :
    (e = .divByZero ∧ ∃ i ∈ zone cfg.clockStart cfg.clockEnd,
      tickColor cfg i = .error .divByZero) ∨
    (e = .outOfBounds ∧ ∃ i, (i ∈ zone cfg.clockStart cfg.clockEnd ∨
        i ∈ zone cfg.minutesStart cfg.minutesEnd ∨
        i ∈ zone cfg.secondsStart cfg.secondsEnd) ∧
      ¬ (0 ≤ i ∧ i < (cfg.colors.length : Int))) := by
  have hPT : ∀ i s s1, s.length = cfg.colors.length → initTick cfg i s = .ok s1 →
      s1.length = cfg.colors.length := by
    intro i s s1 hs hb
    obtain ⟨x, hx⟩ := initTick_is_write cfg i s s1 hb
    rw [writeColor_length _ _ _ _ hx, hs]
  have hPF : ∀ i s s1, s.length = cfg.colors.length → initFuture cfg i s = .ok s1 →
      s1.length = cfg.colors.length := by
    intro i s s1 hs hb
    rw [writeColor_length _ _ _ _ hb, hs]
  have hfut : ∀ (lo hi : Int) (s : List Nat), s.length = cfg.colors.length →
      forState (initFuture cfg) (zone lo hi) s = .error e →
      e = .outOfBounds ∧ ∃ i ∈ zone lo hi, ¬ (0 ≤ i ∧ i < (cfg.colors.length : Int)) := by
    intro lo hi s hs hf
    obtain ⟨i, hi, t, ht, hbt⟩ := forState_error_inv _ _ hPF _ _ _ hs hf
    obtain ⟨he, hnb⟩ := writeColor_error _ _ _ _ hbt
    rw [ht] at hnb
    exact ⟨he, i, hi, hnb⟩
  unfold initColors at h
  cases h1 : forState (initTick cfg) (zone cfg.clockStart cfg.clockEnd) cfg.colors with
  | error x =>
    simp only [h1] at h
    have hx : x = e := Except.error.inj h
    subst hx
    obtain ⟨i, hi, t, ht, hbt⟩ := forState_error_inv _ _ hPT _ _ _ rfl h1
    unfold initTick at hbt
    cases hc : tickColor cfg i with
    | error y =>
      simp only [hc] at hbt
      have hy : y = x := Except.error.inj hbt
      subst hy
      have hd := tickColor_error cfg i y hc
      subst hd
      exact Or.inl ⟨rfl, i, hi, hc⟩
    | ok v =>
      simp only [hc] at hbt
      obtain ⟨he, hnb⟩ := writeColor_error _ _ _ _ hbt
      rw [ht] at hnb
      exact Or.inr ⟨he, i, Or.inl hi, hnb⟩
  | ok c1 =>
    simp only [h1] at h
    have l1 : c1.length = cfg.colors.length :=
      (forState_write_inv _ (initTick_is_write cfg) _ _ _ h1).1
    cases h2 : forState (initFuture cfg) (zone cfg.minutesStart cfg.minutesEnd) c1 with
    | error x =>
      simp only [h2] at h
      have hx : x = e := Except.error.inj h
      subst hx
      obtain ⟨he, i, hi, hnb⟩ := hfut _ _ c1 l1 h2
      exact Or.inr ⟨he, i, Or.inr (Or.inl hi), hnb⟩
    | ok c2 =>
      simp only [h2] at h
      have l2 : c2.length = cfg.colors.length := by
        rw [(forState_write_inv _ (initFuture_is_write cfg) _ _ _ h2).1, l1]
      cases h3 : forState (initFuture cfg) (zone cfg.secondsStart cfg.secondsEnd) c2 with
      | error x =>
        simp only [h3] at h
        have hx : x = e := Except.error.inj h
        subst hx
        obtain ⟨he, i, hi, hnb⟩ := hfut _ _ c2 l2 h3
        exact Or.inr ⟨he, i, Or.inr (Or.inr hi), hnb⟩
      | ok c3 => simp [h3] at h

/-- With `intervalHours >= 1` and the tick spacings derived as in `struct Config`,
the `if` chain evaluates no modulus by zero. -/
theorem tickColor_total (cfg : Config) (hH : 1 ≤ cfg.intervalHours) (hT : cfg.TickSpacing)
    (i : Int) : ∃ v, tickColor cfg i = .ok v := by
  obtain ⟨hh, hq⟩ := hT
  have hcase : cfg.intervalHours = 1 ∨ cfg.intervalHours = 2 ∨ cfg.intervalHours = 3 ∨
      4 ≤ cfg.intervalHours := by omega
  rcases hcase with h1 | h2 | h3 | h4
  · unfold tickColor cmod
    simp [h1]
  · have hh1 : cfg.intervalHalves = 1 := by rw [hh, h2]; rfl
    unfold tickColor cmod
    simp only [h2, hh1]
    by_cases hr : Int.tmod i 2 = 0
    · simp [hr]
    · simp [hr]
  · have hh1 : cfg.intervalHalves = 1 := by rw [hh, h3]; rfl
    unfold tickColor cmod
    simp only [h3, hh1]
    by_cases hr : Int.tmod i 3 = 0
    · simp [hr]
    · simp [hr]
  · have e2 : Int.tdiv cfg.intervalHours 2 = cfg.intervalHours / 2 :=
      Int.tdiv_eq_ediv (by omega) (by omega)
    have e4 : Int.tdiv cfg.intervalHours 4 = cfg.intervalHours / 4 :=
      Int.tdiv_eq_ediv (by omega) (by omega)
    exact ⟨_, tickColor_ok cfg i (by omega) (by rw [hh, e2]; omega) (by rw [hq, e4]; omega)⟩

/-- With every zone index inside `colors[]`, `renderTime` reads no entry outside the
array. -/
theorem renderTime_no_outOfBounds (cfg : Config) (t : DateTime)
    (hb : ∀ i, i ∈ zone cfg.clockStart cfg.clockEnd ∨ i ∈ zone cfg.minutesStart cfg.minutesEnd ∨
        i ∈ zone cfg.secondsStart cfg.secondsEnd → 0 ≤ i ∧ i < (cfg.colors.length : Int)) :
    renderTime cfg t ≠ .error .outOfBounds := by
  by_cases hM : cfg.intervalMinutes = 0
  · have : renderTime cfg t = .error .divByZero := by
      unfold renderTime currentTimeIndex cdiv
      simp [hM]
    rw [this]
    exact fun h => Fault.noConfusion (Except.error.inj h)
  · by_cases hR : cfg.secondsRepresentation = 0
    · have : renderTime cfg t = .error .divByZero := by
        unfold renderTime currentTimeIndex currentMinuteIndex currentSecondIndex cdiv cmod
        simp [hM, hR]
      rw [this]
      exact fun h => Fault.noConfusion (Except.error.inj h)
    · rw [renderTime_ok cfg t hM hR hb]
      exact fun h => Except.noConfusion h

/-! ## Claims about `initColors` as a whole -/

/-- C13: `initColors` is idempotent and deterministic.  When a run on `cfg` has
completed with `cfg2`, a second run on `cfg2` completes and returns `cfg2` itself:
`colors[]` is unchanged, and so is every other field, which already the first run
left as in `cfg`.  Any run from a configuration equal to `cfg` returns the same
`cfg2`. -/
theorem C13_initColors_idempotent (cfg cfg2 : Config) (hrun : initColors cfg = .ok cfg2) :
    initColors cfg2 = .ok cfg2 ∧
    (∃ cs, cfg2 = { cfg with colors := cs }) ∧
    (∀ cfgB cfgB2, cfgB = cfg → initColors cfgB = .ok cfgB2 →
      cfgB2 = cfg2 ∧ cfgB2.colors = cfg2.colors) := by
  refine ⟨initColors_rerun cfg cfg2 hrun, (initColors_ok_shape cfg cfg2 hrun).1, ?_⟩
  intro cfgB cfgB2 hB hrunB
  subst hB
  rw [hrun] at hrunB
  have := Except.ok.inj hrunB
  subst this
  exact ⟨rfl, rfl⟩

/-- C13 at the shipped configuration, which satisfies the side conditions the claim
lists (`intervalHours` positive, halves and quarters non-zero, `secondsEnd <= total`). -/
theorem C13_initColors_idempotent_witness :
    0 < shippedConfig.intervalHours ∧ shippedConfig.intervalHalves ≠ 0 ∧
    shippedConfig.intervalQuarters ≠ 0 ∧ shippedConfig.secondsEnd ≤ shippedConfig.total ∧
    ∃ cfg2, initColors shippedConfig = .ok cfg2 ∧ initColors cfg2 = .ok cfg2 := by
  obtain ⟨cfg2, hrun⟩ := initColors_shipped_ok
  exact ⟨by decide, by decide, by decide, by decide, cfg2, hrun,
    (C13_initColors_idempotent shippedConfig cfg2 hrun).1⟩

/-- C16: with `intervalHours >= 1` and `intervalHalves`, `intervalQuarters` derived
as `intervalHours / 2` and `intervalHours / 4`, the `if` chain of `initColors`
evaluates no modulus by zero at any index, and `initColors` never faults with a
division by zero.  A derived divisor is zero only for `intervalHours` in `{1,2,3}`;
when `intervalHalves` is zero the hour test holds at every index, and when
`intervalQuarters` is zero the hour test or the half test (with a non-zero divisor)
holds at every index. -/
theorem C16_no_modulus_by_zero (cfg : Config) (hH : 1 ≤ cfg.intervalHours)
    (hT : cfg.TickSpacing) :
    (∀ i : Int, ∃ v, tickColor cfg i = .ok v) ∧
    initColors cfg ≠ .error .divByZero ∧
    ((cfg.intervalHalves = 0 ∨ cfg.intervalQuarters = 0) ↔ cfg.intervalHours ≤ 3) ∧
    (cfg.intervalHalves = 0 → ∀ i : Int, Int.tmod i cfg.intervalHours = 0) ∧
    (cfg.intervalQuarters = 0 → ∀ i : Int, Int.tmod i cfg.intervalHours = 0 ∨
      (cfg.intervalHalves ≠ 0 ∧ Int.tmod i cfg.intervalHalves = 0)) := by
  have e2 : Int.tdiv cfg.intervalHours 2 = cfg.intervalHours / 2 :=
    Int.tdiv_eq_ediv (by omega) (by omega)
  have e4 : Int.tdiv cfg.intervalHours 4 = cfg.intervalHours / 4 :=
    Int.tdiv_eq_ediv (by omega) (by omega)
  have hh : cfg.intervalHalves = cfg.intervalHours / 2 := by rw [hT.1, e2]
  have hq : cfg.intervalQuarters = cfg.intervalHours / 4 := by rw [hT.2, e4]
  refine ⟨tickColor_total cfg hH hT, ?_, ?_, ?_, ?_⟩
  · intro herr
    rcases initColors_error cfg _ herr with ⟨-, i, -, hi⟩ | ⟨he, -⟩
    · obtain ⟨v, hv⟩ := tickColor_total cfg hH hT i
      rw [hv] at hi
      exact Except.noConfusion hi
    · exact Fault.noConfusion he
  · omega
  · intro h0 i
    have h1 : cfg.intervalHours = 1 := by omega
    rw [h1]
    exact Int.tmod_one i
  · intro h0 i
    have hcase : cfg.intervalHours = 1 ∨ cfg.intervalHours = 2 ∨ cfg.intervalHours = 3 := by
      omega
    rcases hcase with h1 | h2 | h3
    · left
      rw [h1]
      exact Int.tmod_one i
    · right
      have hh1 : cfg.intervalHalves = 1 := by omega
      rw [hh1]
      exact ⟨by decide, Int.tmod_one i⟩
    · right
      have hh1 : cfg.intervalHalves = 1 := by omega
      rw [hh1]
      exact ⟨by decide, Int.tmod_one i⟩

/-- The shipped configuration with `intervalHours` changed to `2`: the derived
`intervalQuarters` is zero. -/
theorem C16_no_modulus_by_zero_witness :
    1 ≤ ({ intervalHours := 2 } : Config).intervalHours ∧
    ({ intervalHours := 2 } : Config).TickSpacing ∧
    ({ intervalHours := 2 } : Config).intervalQuarters = 0 ∧
    initColors ({ intervalHours := 2 } : Config) ≠ .error .divByZero ∧
    ∀ i : Int, Int.tmod i 2 = 0 ∨ Int.tmod i 1 = 0 := by
  have h := C16_no_modulus_by_zero ({ intervalHours := 2 } : Config) (by decide) (by decide)
  refine ⟨by decide, by decide, by decide, h.2.1, ?_⟩
  intro i
  rcases h.2.2.2.2 (by decide) i with h1 | h2
  · exact Or.inl h1
  · exact Or.inr h2.2

/-- C17: in a configuration laid out as in `struct Config` with non-negative zone
widths, `secondsEnd <= total` and `total` the length of `colors[]`, every index the
loops of `initColors` and `renderTime` visit lies in `[0, total)`; hence neither
`initColors`, nor `renderTime` (before or after `initColors`, at any sampled time)
accesses `colors[]` out of bounds. -/
theorem C17_no_access_out_of_bounds (cfg : Config) (t : DateTime)
    (hL : cfg.ZoneLayout) (hW : 0 ≤ cfg.clockEnd) (hM : 0 ≤ cfg.intervalMinutes)
    (hS : 0 ≤ cfg.intervalSeconds) (hE : cfg.secondsEnd ≤ cfg.total)
    (hT : cfg.total = (cfg.colors.length : Int)) :
    (∀ i, i ∈ zone cfg.clockStart cfg.clockEnd ∨ i ∈ zone cfg.minutesStart cfg.minutesEnd ∨
        i ∈ zone cfg.secondsStart cfg.secondsEnd → 0 ≤ i ∧ i < cfg.total) ∧
    initColors cfg ≠ .error .outOfBounds ∧
    renderTime cfg t ≠ .error .outOfBounds ∧
    (∀ cfg2, initColors cfg = .ok cfg2 → renderTime cfg2 t ≠ .error .outOfBounds) := by
  obtain ⟨hcs, hce, hms, hme, hss, hse⟩ := hL
  have hb : ∀ i, i ∈ zone cfg.clockStart cfg.clockEnd ∨
      i ∈ zone cfg.minutesStart cfg.minutesEnd ∨
      i ∈ zone cfg.secondsStart cfg.secondsEnd → 0 ≤ i ∧ i < cfg.total := by
    intro i hi
    simp only [mem_zone] at hi
    omega
  refine ⟨hb, ?_, ?_, ?_⟩
  · intro herr
    rcases initColors_error cfg _ herr with ⟨he, -⟩ | ⟨-, i, hi, hnb⟩
    · exact Fault.noConfusion he
    · have := hb i hi
      rw [hT] at this
      exact hnb this
  · exact renderTime_no_outOfBounds cfg t (fun i hi => by rw [← hT]; exact hb i hi)
  · intro cfg2 hrun
    exact renderTime_no_outOfBounds cfg2 t (initColors_ok_shape cfg cfg2 hrun).2

/-- C17 at the shipped configuration, where `secondsEnd = total = 165` is the length
of `colors[]`. -/
theorem C17_no_access_out_of_bounds_witness :
    shippedConfig.ZoneLayout ∧ 0 ≤ shippedConfig.clockEnd ∧
    0 ≤ shippedConfig.intervalMinutes ∧ 0 ≤ shippedConfig.intervalSeconds ∧
    shippedConfig.secondsEnd = 165 ∧ shippedConfig.total = 165 ∧
    shippedConfig.colors.length = LED_COUNT ∧ LED_COUNT = 165 ∧
    initColors shippedConfig ≠ .error .outOfBounds ∧
    renderTime shippedConfig ⟨2024, 1, 1, 7, 5, 30⟩ ≠ .error .outOfBounds :=
  have h := C17_no_access_out_of_bounds shippedConfig ⟨2024, 1, 1, 7, 5, 30⟩
    (by decide) (by decide) (by decide) (by decide) (by decide) (by decide)
  ⟨by decide, by decide, by decide, by decide, by decide, by decide, by decide, by decide,
    h.2.1, h.2.2.1⟩

/-! ## Further claims about one pass of `loop` -/

/-- C15: when the sampled time equals the previous sample, one pass of `loop`
completes with an empty trace (no `setPixelColor`, `clear` or `show`, no `renderTime`)
and leaves `last` and `alreadyOff` as they were. -/
theorem C15_unchanged_sample_is_idle (cfg : Config) (s : LoopState) (now : DateTime)
    (hsame : now = s.last) :
    loop cfg s now = .ok (s, []) := by
  unfold loop
  simp [hsame]

/-- C15 at the shipped configuration: 07:05:30 sampled twice. -/
theorem C15_unchanged_sample_is_idle_witness :
    (⟨2024, 1, 1, 7, 5, 30⟩ : DateTime) =
      (⟨⟨2024, 1, 1, 7, 5, 30⟩, false⟩ : LoopState).last ∧
    loop shippedConfig ⟨⟨2024, 1, 1, 7, 5, 30⟩, false⟩ ⟨2024, 1, 1, 7, 5, 30⟩ =
      .ok (⟨⟨2024, 1, 1, 7, 5, 30⟩, false⟩, []) :=
  ⟨rfl, C15_unchanged_sample_is_idle shippedConfig ⟨⟨2024, 1, 1, 7, 5, 30⟩, false⟩
    ⟨2024, 1, 1, 7, 5, 30⟩ rfl⟩

/-! ## Monotonicity of the hour-track boundary -/

/-- C19: with positive `intervalHours` and `intervalMinutes` whose product is 60, for
two times with minutes in `[0,60)` and `(hour1, minute1) <= (hour2, minute2)` in
lexicographic order, both hour-track boundaries are defined and the first is at
most the second. -/
theorem C19_timeIndex_monotone (cfg : Config) (hour1 minute1 hour2 minute2 : Int)
    (hH : 0 < cfg.intervalHours) (hM : 0 < cfg.intervalMinutes)
    (hP : cfg.intervalHours * cfg.intervalMinutes = 60)
    (a1 : 0 ≤ minute1) (b1 : minute1 < 60) (a2 : 0 ≤ minute2) (_b2 : minute2 < 60)
    (hle : hour1 < hour2 ∨ (hour1 = hour2 ∧ minute1 ≤ minute2)) :
    ∃ t1 t2, currentTimeIndex cfg hour1 minute1 = .ok t1 ∧
      currentTimeIndex cfg hour2 minute2 = .ok t2 ∧ t1 ≤ t2 := by
  have hne : cfg.intervalMinutes ≠ 0 := by omega
  have e1 : Int.tdiv minute1 cfg.intervalMinutes = minute1 / cfg.intervalMinutes :=
    Int.tdiv_eq_ediv a1 (le_of_lt hM)
  have e2 : Int.tdiv minute2 cfg.intervalMinutes = minute2 / cfg.intervalMinutes :=
    Int.tdiv_eq_ediv a2 (le_of_lt hM)
  have q1 : minute1 / cfg.intervalMinutes < cfg.intervalHours := by
    apply Int.ediv_lt_of_lt_mul hM
    rw [hP]; exact b1
  have q2 : 0 ≤ minute2 / cfg.intervalMinutes := Int.ediv_nonneg a2 (le_of_lt hM)
  refine ⟨cfg.clockStart + (hour1 - cfg.hoursStart) * cfg.intervalHours
      + Int.tdiv minute1 cfg.intervalMinutes,
    cfg.clockStart + (hour2 - cfg.hoursStart) * cfg.intervalHours
      + Int.tdiv minute2 cfg.intervalMinutes, ?_, ?_, ?_⟩
  · unfold currentTimeIndex cdiv
    simp only [hne, if_false]
  · unfold currentTimeIndex cdiv
    simp only [hne, if_false]
  · rw [e1, e2]
    rcases hle with hlt | ⟨heq, hmin⟩
    · have hp : (hour1 - cfg.hoursStart + 1) * cfg.intervalHours ≤
          (hour2 - cfg.hoursStart) * cfg.intervalHours :=
        mul_le_mul_of_nonneg_right (by omega) (le_of_lt hH)
      nlinarith
    · subst heq
      have := Int.ediv_le_ediv hM hmin
      omega

/-- C19 at the shipped configuration: 07:55 (boundary 23) and 08:00 (boundary 24). -/
theorem C19_timeIndex_monotone_witness :
    0 < shippedConfig.intervalHours ∧ 0 < shippedConfig.intervalMinutes ∧
    shippedConfig.intervalHours * shippedConfig.intervalMinutes = 60 ∧
    currentTimeIndex shippedConfig 7 55 = .ok 23 ∧
    currentTimeIndex shippedConfig 8 0 = .ok 24 ∧
    ∃ t1 t2, currentTimeIndex shippedConfig 7 55 = .ok t1 ∧
      currentTimeIndex shippedConfig 8 0 = .ok t2 ∧ t1 ≤ t2 :=
  ⟨by decide, by decide, by decide, by decide, by decide,
    C19_timeIndex_monotone shippedConfig 7 55 8 0 (by decide) (by decide) (by decide)
      (by decide) (by decide) (by decide) (by decide) (Or.inl (by decide))⟩

/-! ## The latch of `loop` as an invariant -/

/-- After a completed pass of `loop` with a changed sample, `last` is the sample and
the latch is set exactly when the hour of the sample is outside the window. -/
theorem loop_changed_sets_latch (cfg : Config) (s st : LoopState) (now : DateTime)
    (es : List Effect) (hch : now ≠ s.last) (h : loop cfg s now = .ok (st, es)) :
    st.last = now ∧ st.alreadyOff = !inClockRange cfg (getHours st.last) := by
  unfold loop at h
  simp only [hch, ne_eq, not_false_eq_true, if_true] at h
  cases hin : inClockRange cfg (getHours now) with
  | true =>
    simp only [hin, if_true] at h
    cases hr : renderTime cfg now with
    | error e => simp [hr] at h
    | ok tr =>
      simp only [hr] at h
      have := (Prod.mk.inj (Except.ok.inj h)).1
      subst this
      exact ⟨rfl, by simp [hin]⟩
  | false =>
    simp only [hin] at h
    cases hoff : s.alreadyOff with
    | false =>
      simp [hoff] at h
      have := h.1
      subst this
      exact ⟨rfl, by simp [hin]⟩
    | true =>
      simp [hoff] at h
      have := h.1
      subst this
      exact ⟨rfl, by simp [hin]⟩

/-- The latch invariant holds in every state reached with at least one changed
sample. -/
theorem reachable_latch (cfg : Config) (st : LoopState) (b : Bool)
    (h : Reachable cfg st b) :
    b = true → st.alreadyOff = !inClockRange cfg (getHours st.last) := by
  induction h with
  | start => intro hb; exact absurd hb (by decide)
  | @pass s st accepted now es hs hl ih =>
    intro hb
    by_cases hch : now = s.last
    · have hst : loop cfg s now = .ok (s, []) := by
        unfold loop
        simp [hch]
      rw [hst] at hl
      have := (Prod.mk.inj (Except.ok.inj hl)).1
      subst this
      apply ih
      simpa [hch] using hb
    · exact (loop_changed_sets_latch cfg s st now es hch hl).2

/-- C20: viewing one pass of `loop` as a transition on `(last, alreadyOff)`: after
every completed pass whose sample differed from `last`, `last` is that sample and
`alreadyOff` is true exactly when the hour of `last` is outside the active window;
hence in every state reachable from the initial state by completed passes of which
at least one saw a changed sample, `alreadyOff = not inClockRange(hour of last)`. -/
theorem C20_latch_tracks_window :
    (∀ (cfg : Config) (s st : LoopState) (now : DateTime) (es : List Effect),
      now ≠ s.last → loop cfg s now = .ok (st, es) →
      st.last = now ∧
      (st.alreadyOff = true ↔ inClockRange cfg (getHours st.last) = false)) ∧
    (∀ (cfg : Config) (st : LoopState), Reachable cfg st true →
      st.alreadyOff = !inClockRange cfg (getHours st.last)) := by
  constructor
  · intro cfg s st now es hch h
    obtain ⟨h1, h2⟩ := loop_changed_sets_latch cfg s st now es hch h
    refine ⟨h1, ?_⟩
    rw [h2]
    cases inClockRange cfg (getHours st.last) <;> simp
  · intro cfg st h
    exact reachable_latch cfg st true h rfl

/-- C20 at the shipped configuration: the state reached from startup by the sample
05:00:00, outside the window `[6,19)`, has the latch set. -/
theorem C20_latch_tracks_window_witness :
    Reachable shippedConfig ⟨⟨2024, 1, 1, 5, 0, 0⟩, true⟩ true ∧
    inClockRange shippedConfig (getHours ⟨2024, 1, 1, 5, 0, 0⟩) = false ∧
    (⟨⟨2024, 1, 1, 5, 0, 0⟩, true⟩ : LoopState).alreadyOff =
      !inClockRange shippedConfig
        (getHours (⟨⟨2024, 1, 1, 5, 0, 0⟩, true⟩ : LoopState).last) := by
  have hr : Reachable shippedConfig ⟨⟨2024, 1, 1, 5, 0, 0⟩, true⟩ true :=
    @Reachable.pass shippedConfig initialLoopState ⟨⟨2024, 1, 1, 5, 0, 0⟩, true⟩ false
      ⟨2024, 1, 1, 5, 0, 0⟩
      (Effect.serialPrintln "not in clock range!" :: blankStrip shippedConfig)
      Reachable.start (by decide)
  exact ⟨hr, by decide, C20_latch_tracks_window.2 shippedConfig _ hr⟩

/-! ## The minute and second boundaries -/

/-- C18: in a configuration laid out as in `struct Config`, with positive
`intervalMinutes` and `secondsRepresentation` and `intervalSeconds *
secondsRepresentation >= 60`, for every minute and second in `[0,60)` the boundary
`minuteIndex` of `renderTime` lies in `[minutesStart, minutesEnd)` and `secondIndex`
in `[secondsStart, secondsEnd)`; the loop body therefore takes its `colors[i]` branch
at the last pixel of the minute zone and of the second zone, and when `initColors`
has run every write of `renderTime` to these two pixels carries the future colour. -/
theorem C18_counter_boundaries_within_zones (cfg : Config) (t : DateTime)
    (hL : cfg.ZoneLayout) (hM : 0 < cfg.intervalMinutes)
    (hR : 0 < cfg.secondsRepresentation)
    (hS : 60 ≤ cfg.intervalSeconds * cfg.secondsRepresentation)
    (_hm : getMinutes t < 60) (hs : getSeconds t < 60) :
    ∃ minuteIndex secondIndex,
      currentMinuteIndex cfg (getMinutes t) = .ok minuteIndex ∧
      currentSecondIndex cfg (getSeconds t) = .ok secondIndex ∧
      cfg.minutesStart ≤ minuteIndex ∧ minuteIndex < cfg.minutesEnd ∧
      cfg.secondsStart ≤ secondIndex ∧ secondIndex < cfg.secondsEnd ∧
      renderPixel cfg minuteIndex cfg.colorCounterMinutes (cfg.minutesEnd - 1) =
        Except.map (fun c => [Effect.setPixelColor (cfg.minutesEnd - 1) c])
          (readColor cfg.colors (cfg.minutesEnd - 1)) ∧
      renderPixel cfg secondIndex cfg.colorCounterSeconds (cfg.secondsEnd - 1) =
        Except.map (fun c => [Effect.setPixelColor (cfg.secondsEnd - 1) c])
          (readColor cfg.colors (cfg.secondsEnd - 1)) ∧
      (∀ cfg0, initColors cfg0 = .ok cfg → ∃ es, renderTime cfg t = .ok es ∧
        Effect.setPixelColor (cfg.minutesEnd - 1) cfg.colorFuture ∈ es ∧
        Effect.setPixelColor (cfg.secondsEnd - 1) cfg.colorFuture ∈ es ∧
        (∀ c, Effect.setPixelColor (cfg.minutesEnd - 1) c ∈ es → c = cfg.colorFuture) ∧
        (∀ c, Effect.setPixelColor (cfg.secondsEnd - 1) c ∈ es → c = cfg.colorFuture)) := by
  obtain ⟨hcs, hce, hms, hme, hss, hse⟩ := hL
  have hM0 : cfg.intervalMinutes ≠ 0 := by omega
  have hR0 : cfg.secondsRepresentation ≠ 0 := by omega
  have hmin0 : (0 : Int) ≤ getMinutes t := by unfold getMinutes; omega
  have hsec0 : (0 : Int) ≤ getSeconds t := by unfold getSeconds; omega
  have hS1 : 0 < cfg.intervalSeconds := by
    by_contra hneg
    have : cfg.intervalSeconds * cfg.secondsRepresentation ≤ 0 :=
      mul_nonpos_of_nonpos_of_nonneg (by omega) (le_of_lt hR)
    omega
  have r0 : 0 ≤ Int.tmod (getMinutes t) cfg.intervalMinutes := Int.tmod_nonneg _ hmin0
  have r1 : Int.tmod (getMinutes t) cfg.intervalMinutes < cfg.intervalMinutes :=
    Int.tmod_lt_of_pos _ hM
  have q0 : 0 ≤ Int.tdiv (getSeconds t) cfg.secondsRepresentation :=
    Int.tdiv_nonneg hsec0 (le_of_lt hR)
  have q1 : Int.tdiv (getSeconds t) cfg.secondsRepresentation < cfg.intervalSeconds := by
    rw [Int.tdiv_eq_ediv hsec0 (le_of_lt hR)]
    exact Int.ediv_lt_of_lt_mul hR (by omega)
  have hlastM : ¬ (cfg.minutesEnd - 1 <
      cfg.minutesStart + Int.tmod (getMinutes t) cfg.intervalMinutes) := by omega
  have hlastS : ¬ (cfg.secondsEnd - 1 <
      cfg.secondsStart + Int.tdiv (getSeconds t) cfg.secondsRepresentation) := by omega
  refine ⟨cfg.minutesStart + Int.tmod (getMinutes t) cfg.intervalMinutes,
    cfg.secondsStart + Int.tdiv (getSeconds t) cfg.secondsRepresentation,
    ?_, ?_, by omega, by omega, by omega, by omega, ?_, ?_, ?_⟩
  · unfold currentMinuteIndex cmod
    simp only [hM0, if_false]
  · unfold currentSecondIndex cdiv
    simp only [hR0, if_false]
  · unfold renderPixel
    rw [if_neg hlastM]
    cases readColor cfg.colors (cfg.minutesEnd - 1) <;> rfl
  · unfold renderPixel
    rw [if_neg hlastS]
    cases readColor cfg.colors (cfg.secondsEnd - 1) <;> rfl
  · intro cfg0 hrun
    have hfutM := initColors_ok_counter cfg0 cfg hrun (cfg.minutesEnd - 1)
      (Or.inl (by rw [mem_zone]; omega))
    have hfutS := initColors_ok_counter cfg0 cfg hrun (cfg.secondsEnd - 1)
      (Or.inr (by rw [mem_zone]; omega))
    refine ⟨_, renderTime_after_init cfg0 cfg t hrun hM0 hR0, ?_, ?_, ?_, ?_⟩
    · apply List.mem_append_left
      apply List.mem_append_right
      refine List.mem_map.mpr ⟨cfg.minutesEnd - 1, by rw [mem_zone]; omega, ?_⟩
      rw [if_neg hlastM, hfutM]
    · apply List.mem_append_right
      refine List.mem_map.mpr ⟨cfg.secondsEnd - 1, by rw [mem_zone]; omega, ?_⟩
      rw [if_neg hlastS, hfutS]
    · intro c hc
      rcases List.mem_append.mp hc with hc | hc
      · rcases List.mem_append.mp hc with hc | hc
        · rcases List.mem_append.mp hc with hc | hc
          · simp [logTime] at hc
          · obtain ⟨k, hk, hkeq⟩ := List.mem_map.mp hc
            rw [mem_zone] at hk
            injection hkeq with hkn _
            omega
        · obtain ⟨k, hk, hkeq⟩ := List.mem_map.mp hc
          injection hkeq with hkn hkc
          subst hkn
          rw [if_neg hlastM, hfutM] at hkc
          exact hkc.symm
      · obtain ⟨k, hk, hkeq⟩ := List.mem_map.mp hc
        rw [mem_zone] at hk
        injection hkeq with hkn _
        omega
    · intro c hc
      rcases List.mem_append.mp hc with hc | hc
      · rcases List.mem_append.mp hc with hc | hc
        · rcases List.mem_append.mp hc with hc | hc
          · simp [logTime] at hc
          · obtain ⟨k, hk, hkeq⟩ := List.mem_map.mp hc
            rw [mem_zone] at hk
            injection hkeq with hkn _
            omega
        · obtain ⟨k, hk, hkeq⟩ := List.mem_map.mp hc
          rw [mem_zone] at hk
          injection hkeq with hkn _
          omega
      · obtain ⟨k, hk, hkeq⟩ := List.mem_map.mp hc
        injection hkeq with hkn hkc
        subst hkn
        rw [if_neg hlastS, hfutS] at hkc
        exact hkc.symm

/-- C18 at the shipped configuration after `initColors`, 09:59:59: the boundaries are
160 and 164, and pixels 160 and 164 get the future colour. -/
theorem C18_counter_boundaries_within_zones_witness :
    ∃ cfg2 es, initColors shippedConfig = .ok cfg2 ∧
      cfg2.ZoneLayout ∧ 0 < cfg2.intervalMinutes ∧ 0 < cfg2.secondsRepresentation ∧
      60 ≤ cfg2.intervalSeconds * cfg2.secondsRepresentation ∧
      getMinutes ⟨2024, 1, 1, 9, 59, 59⟩ < 60 ∧ getSeconds ⟨2024, 1, 1, 9, 59, 59⟩ < 60 ∧
      cfg2.minutesEnd - 1 = 160 ∧ cfg2.secondsEnd - 1 = 164 ∧
      renderTime cfg2 ⟨2024, 1, 1, 9, 59, 59⟩ = .ok es ∧
      Effect.setPixelColor (cfg2.minutesEnd - 1) cfg2.colorFuture ∈ es ∧
      Effect.setPixelColor (cfg2.secondsEnd - 1) cfg2.colorFuture ∈ es := by
  obtain ⟨cfg2, hrun⟩ := initColors_shipped_ok
  obtain ⟨hfr, -, -⟩ := initColors_ok_frame _ _ hrun
  obtain ⟨hm, hr, hL⟩ := initColors_shipped_fields cfg2 hrun
  have his : cfg2.intervalSeconds = 4 := by rw [hfr]; rfl
  have hme : cfg2.minutesEnd = 161 := by rw [hfr]; rfl
  have hse : cfg2.secondsEnd = 165 := by rw [hfr]; rfl
  have hM : 0 < cfg2.intervalMinutes := by omega
  have hR : 0 < cfg2.secondsRepresentation := by omega
  have hS : 60 ≤ cfg2.intervalSeconds * cfg2.secondsRepresentation := by
    rw [his, hr]; decide
  obtain ⟨mi, si, -, -, -, -, -, -, -, -, h⟩ :=
    C18_counter_boundaries_within_zones cfg2 ⟨2024, 1, 1, 9, 59, 59⟩ hL hM hR hS
      (by decide) (by decide)
  obtain ⟨es, h1, h2, h3, -, -⟩ := h shippedConfig hrun
  exact ⟨cfg2, es, hrun, hL, hM, hR, hS, by decide, by decide, by omega, by omega,
    h1, h2, h3⟩

/-! ## The period of the tick pattern -/

/-- A non-negative number below `2 * d` is a multiple of `d` exactly when it is `0`
or `d`. -/
theorem emod_eq_zero_below_two (r d : Int) (hd : 0 < d) (h0 : 0 ≤ r) (h1 : r < 2 * d) :
    r % d = 0 ↔ r = 0 ∨ r = d := by
  constructor
  · intro h
    obtain ⟨m, hm⟩ := Int.dvd_of_emod_eq_zero h
    have m0 : 0 ≤ m := by
      by_contra hneg
      have : d * m ≤ d * (-1) := mul_le_mul_of_nonneg_left (by omega) (le_of_lt hd)
      omega
    have m2 : m < 2 := by
      by_contra hbig
      have : d * 2 ≤ d * m := mul_le_mul_of_nonneg_left (by omega) (le_of_lt hd)
      omega
    have hcase : m = 0 ∨ m = 1 := by omega
    rcases hcase with rfl | rfl
    · left; omega
    · right; omega
  · rintro (rfl | rfl)
    · simp
    · simp

/-- A non-negative number below `4 * d` is a multiple of `d` exactly when it is `0`,
`d`, `2 * d` or `3 * d`. -/
theorem emod_eq_zero_below_four (r d : Int) (hd : 0 < d) (h0 : 0 ≤ r) (h1 : r < 4 * d) :
    r % d = 0 ↔ r = 0 ∨ r = d ∨ r = 2 * d ∨ r = 3 * d := by
  constructor
  · intro h
    obtain ⟨m, hm⟩ := Int.dvd_of_emod_eq_zero h
    have m0 : 0 ≤ m := by
      by_contra hneg
      have : d * m ≤ d * (-1) := mul_le_mul_of_nonneg_left (by omega) (le_of_lt hd)
      omega
    have m4 : m < 4 := by
      by_contra hbig
      have : d * 4 ≤ d * m := mul_le_mul_of_nonneg_left (by omega) (le_of_lt hd)
      omega
    have hcase : m = 0 ∨ m = 1 ∨ m = 2 ∨ m = 3 := by omega
    rcases hcase with rfl | rfl | rfl | rfl
    · left; omega
    · right; left; omega
    · right; right; left; omega
    · right; right; right; omega
  · rintro (rfl | rfl | rfl | rfl)
    · simp
    · simp
    · simp
    · simp

/-- For `intervalHours` a positive multiple of 4 with the tick spacings derived as in
`struct Config`, the `if` chain of `initColors` at a non-negative index depends only
on `r = i % intervalHours`. -/
theorem tickColor_by_remainder (cfg : Config) (i : Int) (hi : 0 ≤ i)
    (hH : 0 < cfg.intervalHours) (h4 : Int.tmod cfg.intervalHours 4 = 0)
    (hT : cfg.TickSpacing) :
    tickColor cfg i = .ok
      (if Int.tmod i cfg.intervalHours = 0 then cfg.colorTicksHours
       else if Int.tmod i cfg.intervalHours = Int.tdiv cfg.intervalHours 2
         then cfg.colorTicksHalves
       else if Int.tmod i cfg.intervalHours = Int.tdiv cfg.intervalHours 4 ∨
           Int.tmod i cfg.intervalHours = Int.tdiv (3 * cfg.intervalHours) 4
         then cfg.colorTicksQuarters
       else cfg.colorFuture) := by
  obtain ⟨hh, hq⟩ := hT
  have e2 : Int.tdiv cfg.intervalHours 2 = cfg.intervalHours / 2 :=
    Int.tdiv_eq_ediv (by omega) (by omega)
  have e4 : Int.tdiv cfg.intervalHours 4 = cfg.intervalHours / 4 :=
    Int.tdiv_eq_ediv (by omega) (by omega)
  have e3 : Int.tdiv (3 * cfg.intervalHours) 4 = 3 * cfg.intervalHours / 4 :=
    Int.tdiv_eq_ediv (by omega) (by omega)
  have h4e : cfg.intervalHours % 4 = 0 := by
    rw [← Int.tmod_eq_emod (by omega) (by omega)]; exact h4
  -- `intervalHours = 4 * q`
  obtain ⟨q, hq4⟩ : ∃ q, cfg.intervalHours = 4 * q := ⟨cfg.intervalHours / 4, by omega⟩
  have hqpos : 0 < q := by omega
  have hhalf : cfg.intervalHalves = 2 * q := by rw [hh, e2]; omega
  have hquar : cfg.intervalQuarters = q := by rw [hq, e4]; omega
  have hr0 : 0 ≤ i % (4 * q) := Int.emod_nonneg _ (by omega)
  have hr1 : i % (4 * q) < 4 * q := Int.emod_lt_of_pos _ (by omega)
  have m1 : Int.tmod i cfg.intervalHours = i % (4 * q) := by
    rw [Int.tmod_eq_emod hi (by omega), hq4]
  have m2 : Int.tmod i cfg.intervalHalves = (i % (4 * q)) % (2 * q) := by
    rw [Int.tmod_eq_emod hi (by omega), hhalf,
      Int.emod_emod_of_dvd i (⟨2, by ring⟩ : (2 * q) ∣ (4 * q))]
  have m3 : Int.tmod i cfg.intervalQuarters = (i % (4 * q)) % q := by
    rw [Int.tmod_eq_emod hi (by omega), hquar,
      Int.emod_emod_of_dvd i (⟨4, by ring⟩ : q ∣ (4 * q))]
  have c2 : (i % (4 * q)) % (2 * q) = 0 ↔ i % (4 * q) = 0 ∨ i % (4 * q) = 2 * q :=
    emod_eq_zero_below_two _ _ (by omega) hr0 (by omega)
  have c3 : (i % (4 * q)) % q = 0 ↔
      i % (4 * q) = 0 ∨ i % (4 * q) = q ∨ i % (4 * q) = 2 * q ∨ i % (4 * q) = 3 * q :=
    emod_eq_zero_below_four _ _ hqpos hr0 hr1
  have v2 : Int.tdiv cfg.intervalHours 2 = 2 * q := by rw [e2]; omega
  have v4 : Int.tdiv cfg.intervalHours 4 = q := by rw [e4]; omega
  have v3 : Int.tdiv (3 * cfg.intervalHours) 4 = 3 * q := by rw [e3]; omega
  rw [tickColor_ok cfg i (by omega) (by omega) (by omega), m1, m2, m3, v2, v4, v3]
  congr 1
  by_cases k0 : i % (4 * q) = 0
  · simp [k0]
  · by_cases k2 : i % (4 * q) = 2 * q
    · have : (i % (4 * q)) % (2 * q) = 0 := c2.mpr (Or.inr k2)
      simp [k0, k2, this]
    · have n2 : ¬ (i % (4 * q)) % (2 * q) = 0 := fun h => by
        rcases c2.mp h with h | h
        · exact k0 h
        · exact k2 h
      by_cases k13 : i % (4 * q) = q ∨ i % (4 * q) = 3 * q
      · have : (i % (4 * q)) % q = 0 := by
          rcases k13 with h | h
          · exact c3.mpr (Or.inr (Or.inl h))
          · exact c3.mpr (Or.inr (Or.inr (Or.inr h)))
        simp only [k0, k2, n2, this, k13, if_true, if_false]
      · have n3 : ¬ (i % (4 * q)) % q = 0 := fun h => by
          rcases c3.mp h with h | h | h | h
          · exact k0 h
          · exact k13 (Or.inl h)
          · exact k2 h
          · exact k13 (Or.inr h)
        simp only [k0, k2, n2, n3, k13, if_false]

/-- C14 as stated fails: `negativeMinutesConfig` has `intervalHours = 12`, a positive
multiple of 4, with `intervalHalves = 6` and `intervalQuarters = 3` derived; indices
141 and 153 = 141 + 12 both lie in the hour zone `[0,156)` and have remainder 9 =
3 * 12 / 4, yet after `initColors` `colors[141]` is the quarter-tick colour and
`colors[153]` the future colour. -/
theorem C14_counterexample :
    0 < negativeMinutesConfig.intervalHours ∧
    Int.tmod negativeMinutesConfig.intervalHours 4 = 0 ∧
    negativeMinutesConfig.TickSpacing ∧
    negativeMinutesConfig.clockStart ≤ 141 ∧ 153 < negativeMinutesConfig.clockEnd ∧
    Int.tmod 141 negativeMinutesConfig.intervalHours = 9 ∧
    Int.tmod 153 negativeMinutesConfig.intervalHours = 9 ∧
    Int.tdiv (3 * negativeMinutesConfig.intervalHours) 4 = 9 ∧
    Except.map (fun c => (readColor c.colors 141, readColor c.colors 153))
      (initColors negativeMinutesConfig) =
      .ok (.ok negativeMinutesConfig.colorTicksQuarters,
           .ok negativeMinutesConfig.colorFuture) ∧
    negativeMinutesConfig.colorFuture ≠ negativeMinutesConfig.colorTicksQuarters := by
  decide

/-- C14 (amended): in a configuration laid out as in `struct Config` with
non-negative `intervalMinutes`, whose `intervalHours` is a positive multiple of 4
with `intervalHalves = intervalHours / 2` and `intervalQuarters = intervalHours / 4`,
after a completed `initColors` the colour of an hour-zone index `i` depends only on
`r = i % intervalHours`: hour-tick for `r = 0`, half-tick for `r = intervalHours / 2`,
quarter-tick for `r = intervalHours / 4` or `r = 3 * intervalHours / 4`, the future
colour otherwise; hence `colors[i + intervalHours] = colors[i]` when both indices lie
in `[clockStart, clockEnd)`. -/
theorem C14_tick_pattern_has_period_intervalHours (cfg cfg2 : Config) (i : Int)
    (hL : cfg.ZoneLayout) (hM : 0 ≤ cfg.intervalMinutes)
    (hH : 0 < cfg.intervalHours) (h4 : Int.tmod cfg.intervalHours 4 = 0)
    (hT : cfg.TickSpacing) (hrun : initColors cfg = .ok cfg2)
    (h1 : cfg.clockStart ≤ i) (h2 : i < cfg.clockEnd) :
    readColor cfg2.colors i = .ok
      (if Int.tmod i cfg.intervalHours = 0 then cfg.colorTicksHours
       else if Int.tmod i cfg.intervalHours = Int.tdiv cfg.intervalHours 2
         then cfg.colorTicksHalves
       else if Int.tmod i cfg.intervalHours = Int.tdiv cfg.intervalHours 4 ∨
           Int.tmod i cfg.intervalHours = Int.tdiv (3 * cfg.intervalHours) 4
         then cfg.colorTicksQuarters
       else cfg.colorFuture) ∧
    (i + cfg.intervalHours < cfg.clockEnd →
      readColor cfg2.colors (i + cfg.intervalHours) = readColor cfg2.colors i) := by
  obtain ⟨hcs, hce, hms, hme, hss, hse⟩ := hL
  obtain ⟨hfr, hlen, hbd⟩ := initColors_ok_frame cfg cfg2 hrun
  -- the table entry at any index of the hour zone
  have key : ∀ k : Int, cfg.clockStart ≤ k → k < cfg.clockEnd →
      readColor cfg2.colors k = tickColor cfg k := by
    intro k k1 k2
    have hkz : k ∈ zone cfg.clockStart cfg.clockEnd := (mem_zone _ _ _).mpr ⟨k1, k2⟩
    have hkb := hbd k (Or.inl hkz)
    have hcast : ((k.toNat : Nat) : Int) = k := Int.toNat_of_nonneg hkb.1
    have hval := initColors_ok_hour cfg cfg2 hrun _
      (fun j hj => tickColor_by_remainder cfg j
        (by rw [mem_zone] at hj; omega) hH h4 hT) k.toNat
      (by rw [hcast]; exact hkz)
      (by rw [hcast, mem_zone]; omega)
      (by rw [hcast, mem_zone]; omega)
    rw [hcast] at hval
    rw [readColor_ok _ _ hkb.1 (by rw [hlen]; exact hkb.2), hval,
      tickColor_by_remainder cfg k (by omega) hH h4 hT]
  constructor
  · rw [key i h1 h2, tickColor_by_remainder cfg i (by omega) hH h4 hT]
  · intro h3
    rw [key i h1 h2, key (i + cfg.intervalHours) (by omega) h3,
      tickColor_by_remainder cfg i (by omega) hH h4 hT,
      tickColor_by_remainder cfg (i + cfg.intervalHours) (by omega) hH h4 hT]
    have hper : Int.tmod (i + cfg.intervalHours) cfg.intervalHours =
        Int.tmod i cfg.intervalHours := by
      rw [Int.tmod_eq_emod (by omega) (by omega), Int.tmod_eq_emod (by omega) (by omega),
        Int.add_emod_self]
    rw [hper]

/-- C14 (amended) at the shipped configuration: index 21 has remainder 9 =
3 * 12 / 4 and holds the quarter-tick colour, as does index 33. -/
theorem C14_tick_pattern_has_period_intervalHours_witness :
    shippedConfig.ZoneLayout ∧ 0 ≤ shippedConfig.intervalMinutes ∧
    0 < shippedConfig.intervalHours ∧ Int.tmod shippedConfig.intervalHours 4 = 0 ∧
    shippedConfig.TickSpacing ∧
    ∃ cfg2, initColors shippedConfig = .ok cfg2 ∧
      readColor cfg2.colors 21 = .ok shippedConfig.colorTicksQuarters ∧
      readColor cfg2.colors (21 + shippedConfig.intervalHours) =
        readColor cfg2.colors 21 := by
  obtain ⟨cfg2, hrun⟩ := initColors_shipped_ok
  have h := C14_tick_pattern_has_period_intervalHours shippedConfig cfg2 21
    (by decide) (by decide) (by decide) (by decide) (by decide) hrun (by decide) (by decide)
  refine ⟨by decide, by decide, by decide, by decide, by decide, cfg2, hrun, ?_,
    h.2 (by decide)⟩
  rw [h.1]
  decide

end LinearClock
